import Mathlib

/-!
Shallow embedding of the reconciliation pipelines of `ibc-data-pipelines`
(`src/pipelines/staffing-roster-pipeline.py`, `new-consultant-pipeline.py`,
`projects-pipeline.py`, `errors.py`), with theorems checking the
natural-language specification against the code.

Rows coming from the sheet are JSON objects: we model a row as an
association list from column-header strings to `Val` values (string,
boolean, integer or null), mirroring what `response.json()` can produce
for the fields used by the pipelines.

All string manipulation used by the pipelines (`strip`, `lower`,
`split`, `join`, substring membership, sorting) is implemented here by
structural recursion on character lists so that every definition
reduces inside the kernel.
-/

namespace IBC

/-! ## Python string primitives -/

/-- Characters Python's `str.strip()` removes. -/
def isSpaceChar (c : Char) : Bool :=
  c = ' ' ∨ c = '\t' ∨ c = '\n' ∨ c = '\r' ∨ c = '\x0b' ∨ c = '\x0c'

/-- Python `s.strip()`. -/
def pyStrip (s : String) : String :=
  String.mk (((s.data.dropWhile isSpaceChar).reverse.dropWhile isSpaceChar).reverse)

/-- Lower-case one ASCII character (Python `str.lower` on the pipeline's data). -/
def lowerChar (c : Char) : Char :=
  if 65 ≤ c.toNat ∧ c.toNat ≤ 90 then Char.ofNat (c.toNat + 32) else c

/-- Python `s.lower()`. -/
def pyLower (s : String) : String :=
  String.mk (s.data.map lowerChar)

/-- Helper for `pySplitComma`: accumulate the current chunk (reversed). -/
def splitCommaAux : List Char → List Char → List (List Char)
  | [], acc => [acc.reverse]
  | c :: rest, acc =>
      if c = ',' then acc.reverse :: splitCommaAux rest []
      else splitCommaAux rest (c :: acc)

/-- Python `s.split(",")` (note: `"".split(",") == [""]`). -/
def pySplitComma (s : String) : List String :=
  (splitCommaAux s.data []).map String.mk

/-- Python `", ".join(l)`. -/
def joinComma : List String → String
  | [] => ""
  | [s] => s
  | s :: rest => s ++ ", " ++ joinComma rest

/-- `pat` is a leading segment of `l`. -/
def leadsWith : List Char → List Char → Bool
  | [], _ => true
  | _ :: _, [] => false
  | a :: as, b :: bs => a = b && leadsWith as bs

/-- `pat` occurs as a contiguous segment of `l` (Python `pat in s`). -/
def containsSeq (pat : List Char) : List Char → Bool
  | [] => pat.isEmpty
  | c :: rest => leadsWith pat (c :: rest) || containsSeq pat rest

/-- Python `sub in s` for strings. -/
def pyContains (s sub : String) : Bool :=
  containsSeq sub.data s.data

/-- Lexicographic `≤` on strings by code point (Python string comparison). -/
def listLe : List Char → List Char → Bool
  | [], _ => true
  | _ :: _, [] => false
  | a :: as, b :: bs =>
      if a < b then true else if b < a then false else listLe as bs

/-- Python `a <= b` on strings. -/
def strLe (a b : String) : Bool :=
  listLe a.data b.data

/-- Insert into a sorted list, keeping equal elements stable. -/
def insertSorted (s : String) : List String → List String
  | [] => [s]
  | t :: ts => if strLe s t then s :: t :: ts else t :: insertSorted s ts

/-- Python `list.sort()` on strings (stable ascending sort). -/
def sortStrings (l : List String) : List String :=
  l.foldr insertSorted []

/-! ## Row values -/

/-- A JSON-ish value as it appears in a sheet row or a database cell. -/
inductive Val where
  | str (s : String)
  | bool (b : Bool)
  | int (n : Int)
  | null
deriving DecidableEq, Repr

/-- A sheet row: association list from column header to value. -/
abbrev Row := List (String × Val)

/-- Python `row.get(col)`: `None` when the key is absent (merged with a
stored JSON null, exactly as Python's `None` merges the two). -/
def pyGet (row : Row) (col : String) : Val :=
  (row.lookup col).getD Val.null

/-- Python `col in row`. -/
def hasKey (row : Row) (col : String) : Bool :=
  (row.lookup col).isSome

/-- Python truthiness of a value (`if val:`). -/
def pyTruthy : Val → Bool
  | .str s => s ≠ ""
  | .bool b => b
  | .int n => n ≠ 0
  | .null => false

/-- Python `str(val)` for the values we model. -/
def pyStr : Val → String
  | .str s => s
  | .bool true => "True"
  | .bool false => "False"
  | .int n => toString n
  | .null => "None"

/-- Python `None if val == "" else val` used on every insert/update value. -/
def emptyToNull (v : Val) : Val :=
  if v = .str "" then .null else v

/-! ## Row validators
`row_is_valid` (staffing-roster-pipeline.py lines 60-71) and
`row_is_valid_and_nc` (new-consultant-pipeline.py lines 62-77). -/

/-- `REQUIRED_SHEET_COLS`, identical in both person pipelines. -/
def REQUIRED_SHEET_COLS : List String :=
  ["Name", "Email", "Current Role", "NetID", "Major"]

/-- Python test `val is None or (isinstance(val, str) and val.strip() == "")`. -/
def isMissing : Val → Bool
  | .null => true
  | .str s => pyStrip s = ""
  | _ => false

/-- `row_is_valid` from staffing-roster-pipeline.py: only the
missing-required-columns check, no role constraint. -/
def row_is_valid (row : Row) : Bool × Option String :=
  let missing := REQUIRED_SHEET_COLS.filter (fun c => isMissing (pyGet row c))
  if missing.isEmpty then (true, none)
  else (false, some ("Missing required columns: " ++ joinComma missing))

/-- `row_is_valid_and_nc` from new-consultant-pipeline.py: the same
missing check followed by the Current Role = 'NC' constraint. -/
def row_is_valid_and_nc (row : Row) : Bool × Option String :=
  let missing := REQUIRED_SHEET_COLS.filter (fun c => isMissing (pyGet row c))
  if missing.isEmpty then
    let curr := (row.lookup "Current Role").getD (.str "")
    match curr with
    | .str s =>
        if pyLower (pyStrip s) = "nc" then (true, none)
        else (false, some ("Current Role is not 'NC' (value: '" ++ s ++ "')"))
    | v => (false, some ("Current Role is not 'NC' (value: '" ++ pyStr v ++ "')"))
  else (false, some ("Missing required columns: " ++ joinComma missing))

/-- The role test of `row_is_valid_and_nc` in isolation: the row's
Current Role (default `""`) is a string that case-insensitively
trim-equals "nc". -/
def ncRoleOk (row : Row) : Bool :=
  match (row.lookup "Current Role").getD (.str "") with
  | .str s => pyLower (pyStrip s) = "nc"
  | _ => false

/-! ## Boolean coercion (`parse_boolean`, staffing lines 115-124) -/

/-- `parse_boolean` from the person pipelines. -/
def parse_boolean : Val → Bool
  | .str s =>
      let l := pyLower (pyStrip s)
      if l = "yes" ∨ l = "true" ∨ l = "1" then true
      else if l = "no" ∨ l = "false" ∨ l = "0" then false
      else false
  | .bool b => b
  | _ => false

/-! ## Availability encoder
`build_availability_sql_columns` (staffing-roster-pipeline.py lines
87-113; new-consultant-pipeline.py lines 93-119, identical).

The availability slot values are free-text strings from the sheet; for
this component we model a row as a mapping from slot header to string
(`SRow`), matching the string operations the code applies to every
non-blank slot value. -/

/-- A row restricted to string-valued cells, used by the encoder. -/
abbrev SRow := List (String × String)

/-- `row_entry.get(slot, "")` for the encoder's string-valued cells. -/
def getSlot (row : SRow) (slot : String) : String :=
  (row.lookup slot).getD ""

/-- The seven weekdays, in the order of `availability_sql_columns`. -/
inductive Weekday where
  | mon | tue | wed | thu | fri | sat | sun
deriving DecidableEq, Repr

/-- The lowercase day name each weekday's branch tests for. -/
def dayName : Weekday → String
  | .mon => "monday"
  | .tue => "tuesday"
  | .wed => "wednesday"
  | .thu => "thursday"
  | .fri => "friday"
  | .sat => "saturday"
  | .sun => "sunday"

/-- The `if`/`elif` chain over day tokens: which weekday a token selects. -/
def parseDay (s : String) : Option Weekday :=
  if s = "monday" then some .mon
  else if s = "tuesday" then some .tue
  else if s = "wednesday" then some .wed
  else if s = "thursday" then some .thu
  else if s = "friday" then some .fri
  else if s = "saturday" then some .sat
  else if s = "sunday" then some .sun
  else none

/-- The `availabilities` dict: one mutable bit list per weekday. -/
def DayBits := Weekday → List Char

/-- `{day: ['0'] * 30 for day in availability_sql_columns}`. -/
def initBits : DayBits := fun _ => List.replicate 30 '0'

/-- Python `lst[idx] = '1'`: raises `IndexError` (here `none`) when
`idx` is out of range. -/
def listSet1 (l : List Char) (i : Nat) : Option (List Char) :=
  if i < l.length then some (l.set i '1') else none

/-- Set bit `i` of weekday `d` (`availabilities[col][idx] = '1'`). -/
def setDay (a : DayBits) (d : Weekday) (i : Nat) : Option DayBits :=
  match listSet1 (a d) i with
  | none => none
  | some l => some (fun e => if e = d then l else a e)

/-- `[day.strip().lower() for day in available_days_str.split(",")]`. -/
def splitDays (s : String) : List String :=
  (pySplitComma s).map (fun t => pyLower (pyStrip t))

/-- The inner `for day in available_days` loop at slot index `i`. -/
def applyTokens (a : DayBits) (i : Nat) : List String → Option DayBits
  | [] => some a
  | t :: ts =>
      match parseDay t with
      | none => applyTokens a i ts
      | some d =>
          match setDay a d i with
          | none => none
          | some a2 => applyTokens a2 i ts

/-- The `for idx, slot in enumerate(time_slots)` loop, starting at index `i`. -/
def processSlots (row : SRow) (a : DayBits) (i : Nat) : List String → Option DayBits
  | [] => some a
  | slot :: rest =>
      if pyStrip (getSlot row slot) = "" then processSlots row a (i + 1) rest
      else
        match applyTokens a i (splitDays (getSlot row slot)) with
        | none => none
        | some a2 => processSlots row a2 (i + 1) rest

/-- `time_slots`: the slot catalogue derived from the batch's first row —
every key containing the time-zone marker, sorted lexicographically. -/
def time_slots (firstRow : SRow) : List String :=
  sortStrings ((firstRow.map Prod.fst).filter (fun k => pyContains k "GMT-0600"))

/-- `build_availability_sql_columns(row_entry, sheet_data)` given the slot
catalogue: `none` models the Python `IndexError` on a bit index ≥ 30. -/
def build_availability_sql_columns (row_entry : SRow) (slots : List String) :
    Option DayBits :=
  processSlots row_entry initBits 0 slots

/-- `"".join(bits)` for one weekday of the encoder's output. -/
def availString (a : DayBits) (d : Weekday) : String :=
  String.mk (a d)

/-- Length of one output string of a (possibly failed) encoder run. -/
def availLen (r : Option DayBits) (d : Weekday) : Option Nat :=
  r.map (fun a => (availString a d).length)

/-- Character at position `i` of weekday `d`'s output string. -/
def availBit (r : Option DayBits) (d : Weekday) (i : Nat) : Option Char :=
  match r with
  | none => none
  | some a => (a d).get? i

/-- All characters of weekday `d`'s output string are '0' or '1'. -/
def availChars01 (r : Option DayBits) (d : Weekday) : Bool :=
  match r with
  | none => true
  | some a => (a d).all (fun c => c = '0' ∨ c = '1')

/-! ## Errors (`errors.py`)
`DataConflictError` (E001), `InvalidFormatError` (E003) and the bare
`PipelineError` are the per-row error classes the row loops catch. -/

/-- The pipeline error taxonomy from `errors.py` (the constructors the
row-level code can raise). -/
inductive PErr where
  | dataConflict (msg : String)
  | invalidFormat (msg : String)
  | pipeline (msg : String)
deriving DecidableEq, Repr

/-! ## The relational store

The pipelines talk to a Postgres store whose schema is not part of the
repository; tables are modelled as lists of rows.  Users and consultants
carry their columns as association lists because the SQL statements are
built column-by-column from the sheet row; projects have a fixed column
set.  `user_id` / `project_id` are store-assigned serials starting at 1. -/

/-- Database columns of one stored row. -/
abbrev Cols := List (String × Val)

/-- Read a column of a stored row (absent column = SQL NULL). -/
def getColV (cols : Cols) (c : String) : Val :=
  (cols.lookup c).getD .null

/-- Write one column of a stored row. -/
def setCol (cols : Cols) (c : String) (v : Val) : Cols :=
  match cols with
  | [] => [(c, v)]
  | (k, w) :: rest => if k = c then (c, v) :: rest else (k, w) :: setCol rest c v

/-- Apply a SET list to a stored row. -/
def setCols (cols : Cols) (pairs : Cols) : Cols :=
  pairs.foldl (fun cs p => setCol cs p.1 p.2) cols

/-- SQL `col = %s` comparison: NULL never matches. -/
def sqlEq (stored param : Val) : Bool :=
  stored ≠ .null ∧ param ≠ .null ∧ stored = param

/-- A project row (`projects` table). -/
structure Project where
  pid : Nat
  name : Val
  semester : Val
  client : Val
  em_id : Option Nat
  sm_id : Option Nat
  pm_id : Option Nat
  sc1_id : Option Nat
  sc2_id : Option Nat
deriving DecidableEq, Repr

/-- The store state. -/
structure DB where
  users : List (Nat × Cols)
  consultants : List Cols
  projects : List Project
  links : List (Nat × Nat × String)
  nextUid : Nat
  nextPid : Nat
deriving DecidableEq, Repr

/-- First user whose given column matches the parameter. -/
def findUserBy (db : DB) (col : String) (v : Val) : Option Nat :=
  (db.users.find? (fun u => sqlEq (getColV u.2 col) v)).map Prod.fst

/-! ## Person upsert (staffing-roster-pipeline.py lines 126-222,
new-consultant-pipeline.py lines 132-172) -/

/-- `SHEET_COLS_TO_SQL_COLS`, in dict insertion order. -/
def SHEET_COLS_TO_SQL_COLS : List (String × String) := [
  ("Name", "name"),
  ("Email", "email"),
  ("Gender", "gender"),
  ("Race", "race"),
  ("US Citizen", "us_citizen"),
  ("Residency", "residency"),
  ("First Generation", "first_gen"),
  ("Current Role", "curr_role"),
  ("NetID", "netid"),
  ("Year", "year"),
  ("Major", "major"),
  ("Minor", "minor"),
  ("College", "college"),
  ("Consultant Score", "consultant_score"),
  ("Semesters in IBC", "semesters_in_ibc"),
  ("Time Zone", "time_zone"),
  ("Willing to Travel", "willing_to_travel"),
  ("Industry Interests", "industry_interests"),
  ("Functional Area Interests", "functional_area_interests"),
  ("Status", "status"),
  ("Week Before Finals Availability", "week_before_finals_availability")]

/-- `USERS_COLS` from `utils`, as imported by both person pipelines. -/
def USERS_COLS : List String :=
  ["name", "email", "gender", "race", "us_citizen", "residency", "first_gen",
   "curr_role", "netid"]

/-- `CONSULTANTS_COLS` (note the source's `consultants_score` typo, kept). -/
def CONSULTANTS_COLS : List String :=
  ["year", "major", "minor", "college", "consultants_score", "semesters_in_ibc",
   "time_zone", "willing_to_travel", "industry_interests",
   "functional_area_interests", "status", "week_before_finals_availability",
   "user_id"]

/-- `boolean_cols` as declared inside `insert_into_users` / `update_existing_user`. -/
def boolean_cols : List String :=
  ["us_citizen", "residency", "first_gen", "week_before_finals_availability"]

/-- The seven availability column names, in source order. -/
def AVAILABILITY_COLS : List String :=
  ["availability_mon", "availability_tue", "availability_wed",
   "availability_thu", "availability_fri", "availability_sat",
   "availability_sun"]

/-- The column/value list `insert_into_users` builds from a row. -/
def userPairs (row : Row) : Cols :=
  SHEET_COLS_TO_SQL_COLS.filterMap (fun p =>
    if hasKey row p.1 ∧ p.2 ∈ USERS_COLS then
      let v := pyGet row p.1
      let v := if p.2 ∈ boolean_cols then Val.bool (parse_boolean v) else v
      some (p.2, emptyToNull v)
    else none)

/-- The column/value list `update_existing_user` builds (email excluded). -/
def userUpdatePairs (row : Row) : Cols :=
  SHEET_COLS_TO_SQL_COLS.filterMap (fun p =>
    if hasKey row p.1 ∧ p.2 ∈ USERS_COLS ∧ p.2 ≠ "email" then
      let v := pyGet row p.1
      let v := if p.2 ∈ boolean_cols then Val.bool (parse_boolean v) else v
      some (p.2, emptyToNull v)
    else none)

/-- The column/value list both consultant writers build: mapped sheet
columns (empty string normalized to NULL, no boolean coercion), then the
seven availability columns taken raw from the row. -/
def consultantPairs (row : Row) : Cols :=
  (SHEET_COLS_TO_SQL_COLS.filterMap (fun p =>
    if hasKey row p.1 ∧ p.2 ∈ CONSULTANTS_COLS then
      some (p.2, emptyToNull (pyGet row p.1))
    else none))
  ++ AVAILABILITY_COLS.filterMap (fun c =>
      if hasKey row c then some (c, pyGet row c) else none)

/-- `insert_into_users`: raises `InvalidFormatError` when no column
matched; a duplicate on the person natural key surfaces as Postgres
23505, re-raised as `DataConflictError`.  Modelled from the spec: the
store's unique constraint on the person email (the schema is not in the
repository; spec §3 "email uniquely identifies a person"). -/
def insert_into_users (row : Row) (db : DB) : Except PErr (Nat × DB) :=
  if (userPairs row).isEmpty then
    .error (.invalidFormat "No valid user columns found in row")
  else
    if getColV (userPairs row) "email" ≠ .null ∧
        db.users.any (fun u => sqlEq (getColV u.2 "email") (getColV (userPairs row) "email")) then
      .error (.dataConflict ("Duplicate key violation: duplicate email " ++
        pyStr (getColV (userPairs row) "email")))
    else
      .ok (db.nextUid,
        { db with users := db.users ++ [(db.nextUid, userPairs row)],
                  nextUid := db.nextUid + 1 })

/-- `get_user_id_by_email`: first match, `None` if not found. -/
def get_user_id_by_email (db : DB) (email : Val) : Option Nat :=
  findUserBy db "email" email

/-- `update_existing_user`: silently returns when no column matched,
otherwise one UPDATE of the matched user's columns (email excluded). -/
def update_existing_user (row : Row) (uid : Nat) (db : DB) : Except PErr (Unit × DB) :=
  if (userUpdatePairs row).isEmpty then .ok ((), db)
  else .ok ((), { db with users := db.users.map (fun u =>
    if u.1 = uid then (u.1, setCols u.2 (userUpdatePairs row)) else u) })

/-- `insert_into_consultants`: one INSERT of the consultant columns plus
the `user_id` reference. -/
def insert_into_consultants (row : Row) (uid : Nat) (db : DB) : Except PErr (Unit × DB) :=
  .ok ((), { db with consultants :=
    db.consultants ++ [consultantPairs row ++ [("user_id", Val.int uid)]] })

/-- `update_existing_consultant`: update when a profile row exists for
the user, otherwise fall back to `insert_into_consultants`. -/
def update_existing_consultant (row : Row) (uid : Nat) (db : DB) : Except PErr (Unit × DB) :=
  if db.consultants.any (fun c => sqlEq (getColV c "user_id") (.int uid)) then
    if (consultantPairs row).isEmpty then .ok ((), db)
    else .ok ((), { db with consultants := db.consultants.map (fun c =>
      if sqlEq (getColV c "user_id") (.int uid) then setCols c (consultantPairs row) else c) })
  else insert_into_consultants row uid db

/-- Decidable equality of outcomes, for evaluating the model on
concrete inputs. -/
instance exceptDecEq {ε α : Type} [DecidableEq ε] [DecidableEq α] :
    DecidableEq (Except ε α) := fun x y =>
  match x, y with
  | .ok a, .ok b =>
      if h : a = b then isTrue (by rw [h])
      else isFalse (fun hh => h (by injection hh))
  | .error a, .error b =>
      if h : a = b then isTrue (by rw [h])
      else isFalse (fun hh => h (by injection hh))
  | .ok _, .error _ => isFalse (fun hh => Except.noConfusion hh)
  | .error _, .ok _ => isFalse (fun hh => Except.noConfusion hh)

/-- Which path a person row took. -/
inductive UpsertKind where
  | created
  | updated
deriving DecidableEq, Repr

/-- The insert branch shared by both person row loops
(`insert_into_users` then `insert_into_consultants`). -/
def staffingInsert (row : Row) (db : DB) : Except PErr (UpsertKind × Nat × DB) := do
  let (uid, db1) ← insert_into_users row db
  let ((), db2) ← insert_into_consultants row uid db1
  return (.created, uid, db2)

/-- One iteration of the staffing-roster `__main__` row loop (lines
267-282): email lookup decides update vs insert; note the Python
truthiness test `if existing_user_id:` on the looked-up id. -/
def processRowStaffing (row : Row) (db : DB) : Except PErr (UpsertKind × Nat × DB) :=
  match (if pyTruthy (pyGet row "Email") then
      get_user_id_by_email db (pyGet row "Email") else none) with
  | some uid =>
      if uid = 0 then staffingInsert row db
      else do
        let ((), db1) ← update_existing_user row uid db
        let ((), db2) ← update_existing_consultant row uid db1
        return (.updated, uid, db2)
  | none => staffingInsert row db

/-- One iteration of the new-consultant `__main__` row loop (lines
220-224): unconditional insert, no lookup. -/
def processRowNC (row : Row) (db : DB) : Except PErr (UpsertKind × Nat × DB) :=
  staffingInsert row db

/-! ## Connection, rollback and the batch loops

Both `__main__` loops run every row on one connection, call
`conn.rollback()` inside the per-row `except` handlers, and call
`conn.commit()` once after the loop.  A rollback therefore restores the
state of the last commit. -/

/-- A connection: last committed state and current uncommitted state. -/
structure Conn where
  committed : DB
  current : DB
deriving DecidableEq, Repr

/-- `conn.rollback()`. -/
def Conn.rollbackTx (c : Conn) : Conn := { c with current := c.committed }

/-- `conn.commit()`. -/
def Conn.commitTx (c : Conn) : Conn := { c with committed := c.current }

/-- The staffing-roster row loop over the validated rows. -/
def staffingLoop (rows : List Row) (c : Conn) : Conn :=
  match rows with
  | [] => c
  | r :: rest =>
      match processRowStaffing r c.current with
      | .ok (_, _, db2) => staffingLoop rest { c with current := db2 }
      | .error _ => staffingLoop rest c.rollbackTx

/-- The staffing-roster batch: row loop, then the single `conn.commit()`. -/
def runStaffing (rows : List Row) (db : DB) : DB :=
  ((staffingLoop rows { committed := db, current := db }).commitTx).committed

/-! ## Projects pipeline (projects-pipeline.py) -/

/-- `KEY_MAP` of `normalize_project_row`. -/
def KEY_MAP : List (String × List String) := [
  ("project_name", ["project_name", "Project Name"]),
  ("project_semester", ["project_semester", "Semester"]),
  ("client_name", ["client_name", "Client Name"]),
  ("em_netid", ["em_netid", "EM net-id", "EM NetID"]),
  ("sm_netid", ["sm_netid", "SM net-id", "SM NetID"]),
  ("pm_netid", ["pm_netid", "PM net-id", "PM NetID"]),
  ("sc1_netid", ["sc1_netid", "SC1 net-id", "SC 1 net-id", "SC 1 NetID"]),
  ("sc2_netid", ["sc2_netid", "SC2 net-id", "SC 2 net-id", "SC 2 NetID"])]

/-- `normalize_project_row`: first non-blank candidate per target key,
`None` when all candidates are absent/blank; other keys preserved. -/
def normalize_project_row (row : Row) : Row :=
  let out := KEY_MAP.map (fun p =>
    (p.1, match p.2.find? (fun c =>
        hasKey row c && decide (pyGet row c ≠ .null)
          && decide (pyStrip (pyStr (pyGet row c)) ≠ "")) with
      | some c => pyGet row c
      | none => Val.null))
  out ++ row.filter (fun kv => ¬ (out.map Prod.fst).contains kv.1)

/-- `project_row_valid`: only `project_name` is required. -/
def project_row_valid (row : Row) : Bool × Option String :=
  if isMissing (pyGet row "project_name") then (false, some "project_name is required")
  else (true, none)

/-- `get_user_id_by_netid`: `None` for non-strings and blank strings. -/
def get_user_id_by_netid (db : DB) (netid : Val) : Option Nat :=
  match netid with
  | .str s => if pyStrip s = "" then none else findUserBy db "netid" (.str s)
  | _ => none

/-- `update_user_role_if_needed`: read `curr_role`, write it when it
differs from the expected role code. -/
def update_user_role_if_needed (db : DB) (uid : Nat) (expected : String) :
    Except PErr DB :=
  match db.users.find? (fun u => u.1 = uid) with
  | none => .error (.pipeline "User disappeared mid-transaction")
  | some u =>
      if getColV u.2 "curr_role" = .str expected then .ok db
      else .ok { db with users := db.users.map (fun w =>
        if w.1 = uid then (w.1, setCol w.2 "curr_role" (.str expected)) else w) }

/-- `get_user_id_for_role_by_netid`: `None` for a falsy netid, a
referential failure naming the netid when it does not resolve, and the
role-label side write when it does. -/
def get_user_id_for_role_by_netid (db : DB) (netid : Val) (role_code : String) :
    Except PErr (Option Nat × DB) :=
  if ¬ pyTruthy netid then .ok (none, db)
  else
    match get_user_id_by_netid db netid with
    | none => .error (.invalidFormat
        ("NetID '" ++ pyStr netid ++ "' for role " ++ role_code ++ " not found in database"))
    | some uid => do
        let db1 ← update_user_role_if_needed db uid role_code
        return (some uid, db1)

/-- `mark_consultant_returning`: no-op on `None`. -/
def mark_consultant_returning (db : DB) (uid : Option Nat) : DB :=
  match uid with
  | none => db
  | some u => { db with consultants := db.consultants.map (fun c =>
      if sqlEq (getColV c "user_id") (.int u) then setCol c "status" (.str "returning") else c) }

/-- `link_consultant_to_project`: no-op on `None`. -/
def link_consultant_to_project (db : DB) (pid : Nat) (uid : Option Nat)
    (role : String) : DB :=
  match uid with
  | none => db
  | some u => { db with links := db.links ++ [(pid, u, role)] }

/-- `project_exists`: project id by name, `None` if absent. -/
def project_exists (db : DB) (name : Val) : Option Nat :=
  (db.projects.find? (fun p => sqlEq p.name name)).map Project.pid

/-- The netid of a role slot's user via the LEFT JOIN (NULL when the
slot or the user is absent). -/
def netidOf (db : DB) (uid : Option Nat) : Val :=
  match uid with
  | none => .null
  | some u =>
      match db.users.find? (fun w => w.1 = u) with
      | none => .null
      | some w => getColV w.2 "netid"

/-- The stored 7-tuple `update_project` fetches for the diff. -/
def projJoin (db : DB) (pid : Nat) : Option (List Val) :=
  (db.projects.find? (fun p => p.pid = pid)).map (fun p =>
    [p.semester, p.client, netidOf db p.em_id, netidOf db p.sm_id,
     netidOf db p.pm_id, netidOf db p.sc1_id, netidOf db p.sc2_id])

/-- The `new_vals` tuple `update_project` compares against the stored
join: semester, client and the five raw netid values from the row. -/
def projectNewVals (row : Row) : List Val :=
  [pyGet row "project_semester", pyGet row "client_name",
   pyGet row "em_netid", pyGet row "sm_netid", pyGet row "pm_netid",
   pyGet row "sc1_netid", pyGet row "sc2_netid"]

/-- `update_project`: fetch the stored tuple (the join query runs before
the role resolutions and reads the incoming state `db`), resolve the
five roles (with their side writes), compare, and either skip (`None` =
unchanged) or overwrite the diffable fields. -/
def update_project (db : DB) (pid : Nat) (row : Row) :
    Except PErr (Option Nat × DB) := do
  let (em, db1) ← get_user_id_for_role_by_netid db (pyGet row "em_netid") "EM"
  let (sm, db2) ← get_user_id_for_role_by_netid db1 (pyGet row "sm_netid") "SM"
  let (pm, db3) ← get_user_id_for_role_by_netid db2 (pyGet row "pm_netid") "PM"
  let (sc1, db4) ← get_user_id_for_role_by_netid db3 (pyGet row "sc1_netid") "SC"
  let (sc2, db5) ← get_user_id_for_role_by_netid db4 (pyGet row "sc2_netid") "SC"
  if projJoin db pid = some (projectNewVals row) then
    return (none, db5)
  else
    return (some pid, { db5 with projects := db5.projects.map (fun p =>
      if p.pid = pid then
        { p with semester := pyGet row "project_semester",
                 client := pyGet row "client_name",
                 em_id := em, sm_id := sm, pm_id := pm,
                 sc1_id := sc1, sc2_id := sc2 }
      else p) })

/-- `insert_project`: delegate to `update_project` when the name exists;
otherwise resolve roles, insert, then run the returning-status cascade
(non-manager roles) and create one link row per non-null role. -/
def insert_project (db : DB) (row : Row) : Except PErr (Option Nat × DB) := do
  match project_exists db (pyGet row "project_name") with
  | some pid => update_project db pid row
  | none =>
      let (em, db1) ← get_user_id_for_role_by_netid db (pyGet row "em_netid") "EM"
      let (sm, db2) ← get_user_id_for_role_by_netid db1 (pyGet row "sm_netid") "SM"
      let (pm, db3) ← get_user_id_for_role_by_netid db2 (pyGet row "pm_netid") "PM"
      let (sc1, db4) ← get_user_id_for_role_by_netid db3 (pyGet row "sc1_netid") "SC"
      let (sc2, db5) ← get_user_id_for_role_by_netid db4 (pyGet row "sc2_netid") "SC"
      let pid := db5.nextPid
      let db6 := { db5 with
        projects := db5.projects ++
          [{ pid := pid, name := pyGet row "project_name",
             semester := pyGet row "project_semester",
             client := pyGet row "client_name",
             em_id := em, sm_id := sm, pm_id := pm, sc1_id := sc1, sc2_id := sc2 }],
        nextPid := db5.nextPid + 1 }
      let db7 := mark_consultant_returning db6 sm
      let db8 := mark_consultant_returning db7 pm
      let db9 := mark_consultant_returning db8 sc1
      let db10 := mark_consultant_returning db9 sc2
      let db11 := link_consultant_to_project db10 pid em "EM"
      let db12 := link_consultant_to_project db11 pid sm "SM"
      let db13 := link_consultant_to_project db12 pid pm "PM"
      let db14 := link_consultant_to_project db13 pid sc1 "SC"
      let db15 := link_consultant_to_project db14 pid sc2 "SC"
      return (some pid, db15)

/-- The projects `__main__` row loop (lines 378-387): per-row
try/except with `conn.rollback()` and continue. -/
def projectsLoop (rows : List Row) (c : Conn) : Conn :=
  match rows with
  | [] => c
  | r :: rest =>
      match insert_project c.current r with
      | .ok (_, db2) => projectsLoop rest { c with current := db2 }
      | .error _ => projectsLoop rest c.rollbackTx

/-- The projects batch: row loop, then the single `conn.commit()`. -/
def runProjects (rows : List Row) (db : DB) : DB :=
  ((projectsLoop rows { committed := db, current := db }).commitTx).committed

end IBC

namespace IBC

/-! ## Concrete instances used by counterexamples and witnesses -/

/-- A fully valid person row. -/
def exPersonRow : Row := [("Name", .str "Alice"), ("Email", .str "a@x.edu"),
  ("Current Role", .str "NC"), ("NetID", .str "ali"), ("Major", .str "CS")]

/-- The empty store (serials start at 1, as in Postgres). -/
def exDB0 : DB := ⟨[], [], [], [], 1, 1⟩

/-- A person row with all required fields but Current Role = "SM". -/
def exRowRoleSM : Row := [("Name", .str "A"), ("Email", .str "e@x"),
  ("Current Role", .str "SM"), ("NetID", .str "n"), ("Major", .str "M")]

/-- A person row missing Email and NetID. -/
def exRowMissing : Row := [("Name", .str "A"), ("Current Role", .str "NC"),
  ("Major", .str "M")]

/-- A store holding one user. -/
def exDBOneUser : DB := ⟨[(1, [("email", .str "a@x")])], [], [], [], 2, 1⟩

/-- A row with none of the recognized person destination fields. -/
def exRowUnrecognized : Row := [("Whatever", .str "x")]

/-- A row carrying only the pre-finals-availability flag. -/
def exRowWeekFinals : Row := [("Week Before Finals Availability", .str "yes")]

/-- A store with one user (netid "ali", role "NC") and one project "P"
whose manager slot points at that user. -/
def exDBProj : DB :=
  ⟨[(1, [("email", .str "a@x"), ("netid", .str "ali"), ("curr_role", .str "NC")])],
   [], [⟨1, .str "P", .str "S", .str "C", some 1, none, none, none, none⟩], [], 2, 2⟩

/-- A normalized project row identical to the stored project "P". -/
def exRowProjSame : Row := [("project_name", .str "P"), ("project_semester", .str "S"),
  ("client_name", .str "C"), ("em_netid", .str "ali"), ("sm_netid", .null),
  ("pm_netid", .null), ("sc1_netid", .null), ("sc2_netid", .null)]

/-- A normalized project row with no role references. -/
def exRowProjOk : Row := [("project_name", .str "P1"), ("project_semester", .null),
  ("client_name", .null), ("em_netid", .null), ("sm_netid", .null),
  ("pm_netid", .null), ("sc1_netid", .null), ("sc2_netid", .null)]

/-- A normalized project row whose manager netid resolves to nobody. -/
def exRowProjGhost : Row := [("project_name", .str "P2"), ("project_semester", .null),
  ("client_name", .null), ("em_netid", .str "ghost"), ("sm_netid", .null),
  ("pm_netid", .null), ("sc1_netid", .null), ("sc2_netid", .null)]

/-- A batch first row with exactly one slot header. -/
def exFirstRowOneSlot : SRow := [("A GMT-0600", "x")]

/-- A row answering Monday and Wednesday for its single slot. -/
def exRowDays : SRow := [("S GMT-0600", "Monday, Wednesday")]

/-- A one-slot catalogue. -/
def exSlots1 : List String := ["S GMT-0600"]

/-- A batch first row with 31 slot headers. -/
def exFirstRow31 : SRow :=
  [("S00 GMT-0600", ""),
   ("S01 GMT-0600", ""),
   ("S02 GMT-0600", ""),
   ("S03 GMT-0600", ""),
   ("S04 GMT-0600", ""),
   ("S05 GMT-0600", ""),
   ("S06 GMT-0600", ""),
   ("S07 GMT-0600", ""),
   ("S08 GMT-0600", ""),
   ("S09 GMT-0600", ""),
   ("S10 GMT-0600", ""),
   ("S11 GMT-0600", ""),
   ("S12 GMT-0600", ""),
   ("S13 GMT-0600", ""),
   ("S14 GMT-0600", ""),
   ("S15 GMT-0600", ""),
   ("S16 GMT-0600", ""),
   ("S17 GMT-0600", ""),
   ("S18 GMT-0600", ""),
   ("S19 GMT-0600", ""),
   ("S20 GMT-0600", ""),
   ("S21 GMT-0600", ""),
   ("S22 GMT-0600", ""),
   ("S23 GMT-0600", ""),
   ("S24 GMT-0600", ""),
   ("S25 GMT-0600", ""),
   ("S26 GMT-0600", ""),
   ("S27 GMT-0600", ""),
   ("S28 GMT-0600", ""),
   ("S29 GMT-0600", ""),
   ("S30 GMT-0600", "")]

/-- A row with a recognized day in the 31st catalogue slot. -/
def exRow31 : SRow := [("S30 GMT-0600", "Monday")]

/-- The five role slots of a project row with the role code each resolves
under. -/
def roleSlots : List (String × String) :=
  [("em_netid", "EM"), ("sm_netid", "SM"), ("pm_netid", "PM"),
   ("sc1_netid", "SC"), ("sc2_netid", "SC")]

/-- A row answering "yes" for US Citizen. -/
def exRowCitizen : Row := [("US Citizen", .str "yes")]

/-- The store `exDBProj` after re-submitting the identical project row:
the unchanged outcome is reported, yet the manager's current-role label
has been rewritten from "NC" to "EM". -/
def exDBProjAfter : DB :=
  ⟨[(1, [("email", .str "a@x"), ("netid", .str "ali"), ("curr_role", .str "EM")])],
   [], [⟨1, .str "P", .str "S", .str "C", some 1, none, none, none, none⟩], [], 2, 2⟩

/-- The store after the project row `exRowProjOk` alone has been processed. -/
def exDBAfterP1 : DB :=
  ⟨[], [], [⟨1, .str "P1", .null, .null, none, none, none, none, none⟩], [], 1, 2⟩

end IBC

namespace IBC

/-! # Helper lemmas -/

theorem lookup_mem {β : Type} {l : List (String × β)} {k : String} {v : β}
    (h : l.lookup k = some v) : (k, v) ∈ l := by
  induction l with
  | nil => simp [List.lookup] at h
  | cons p rest ih =>
      obtain ⟨k2, v2⟩ := p
      rw [List.lookup_cons] at h
      by_cases hk : k = k2
      · subst hk
        simp at h
        subst h
        exact List.mem_cons_self _ _
      · have hb : (k == k2) = false := by simp [hk]
        rw [hb] at h
        exact List.mem_cons_of_mem _ (ih h)

theorem lookup_none_of {β : Type} {l : List (String × β)} {k : String}
    (h : ∀ p ∈ l, p.1 ≠ k) : l.lookup k = none := by
  induction l with
  | nil => simp [List.lookup]
  | cons p rest ih =>
      obtain ⟨k2, v2⟩ := p
      rw [List.lookup_cons]
      have hne : k ≠ k2 := fun hkk => (h (k2, v2) (List.mem_cons_self _ _)) hkk.symm
      have hb : (k == k2) = false := by simp [hne]
      rw [hb]
      exact ih (fun q hq => h q (List.mem_cons_of_mem _ hq))

theorem lookup_isSome_of_mem {β : Type} {l : List (String × β)} {k : String} {v : β}
    (h : (k, v) ∈ l) : (l.lookup k).isSome := by
  induction l with
  | nil => simp at h
  | cons p rest ih =>
      obtain ⟨k2, v2⟩ := p
      rw [List.lookup_cons]
      by_cases hk : k = k2
      · subst hk; simp
      · have hb : (k == k2) = false := by simp [hk]
        rw [hb]
        rcases List.mem_cons.mp h with heq | hmem
        · exact absurd (congrArg Prod.fst heq) hk
        · exact ih hmem

/-! # C4: the row validators -/

/-- C4 (amended): the new-consultant validator `row_is_valid_and_nc`
rejects a row iff a required field is missing or the Current Role check
fails; the staffing validator `row_is_valid` rejects iff a required
field is missing (it has no role check); whenever fields are missing
both return the reason "Missing required columns: " followed by all
missing fields comma-joined in declaration order. -/
theorem C4_validators (row : Row) :
    ((row_is_valid row).1 = false ↔
      REQUIRED_SHEET_COLS.any (fun c => isMissing (pyGet row c)) = true) ∧
    ((row_is_valid_and_nc row).1 = false ↔
      (REQUIRED_SHEET_COLS.any (fun c => isMissing (pyGet row c)) = true ∨
        ncRoleOk row = false)) ∧
    (REQUIRED_SHEET_COLS.any (fun c => isMissing (pyGet row c)) = true →
      (row_is_valid row).2 =
        some ("Missing required columns: " ++
          joinComma (REQUIRED_SHEET_COLS.filter (fun c => isMissing (pyGet row c)))) ∧
      (row_is_valid_and_nc row).2 =
        some ("Missing required columns: " ++
          joinComma (REQUIRED_SHEET_COLS.filter (fun c => isMissing (pyGet row c))))) := by
  have hiff : (REQUIRED_SHEET_COLS.filter (fun c => isMissing (pyGet row c))).isEmpty = true ↔
      ¬ REQUIRED_SHEET_COLS.any (fun c => isMissing (pyGet row c)) = true := by
    rw [List.isEmpty_iff, List.filter_eq_nil, List.any_eq_true]
    simp
  refine ⟨?_, ?_, ?_⟩
  · unfold row_is_valid
    by_cases hE : (REQUIRED_SHEET_COLS.filter (fun c => isMissing (pyGet row c))).isEmpty = true
    · simp [hE, hiff.mp hE]
    · have := (not_iff_not.mpr hiff).mp hE
      simp at this
      simp [hE, this]
  · unfold row_is_valid_and_nc ncRoleOk
    by_cases hE : (REQUIRED_SHEET_COLS.filter (fun c => isMissing (pyGet row c))).isEmpty = true
    · have hnoany := hiff.mp hE
      simp only [hE, if_true]
      cases hcr : (row.lookup "Current Role").getD (.str "") with
      | str s =>
          by_cases hnc : pyLower (pyStrip s) = "nc"
          · simp [hnc, hnoany]
          · simp [hnc, hnoany]
      | bool b => simp [hnoany]
      | int n => simp [hnoany]
      | null => simp [hnoany]
    · have := (not_iff_not.mpr hiff).mp hE
      simp at this
      simp [hE, this]
  · intro hany
    have hne : ¬ (REQUIRED_SHEET_COLS.filter (fun c => isMissing (pyGet row c))).isEmpty = true := by
      intro hE
      exact (hiff.mp hE) hany
    constructor
    · unfold row_is_valid
      simp [hne]
    · unfold row_is_valid_and_nc
      simp [hne]

/-- C4 counterexample: the staffing validator accepts a row whose
Current Role is "SM", so "the person-row validator returns invalid ...
or the Current Role field does not case-insensitively trim-equal 'NC'"
is false as stated for `row_is_valid`. -/
theorem C4_counterexample :
    (row_is_valid exRowRoleSM).1 = true ∧ ncRoleOk exRowRoleSM = false := by
  decide

/-- C4 witness: the amended theorem applied to a concrete row missing
Email and NetID. -/
theorem C4_witness :
    REQUIRED_SHEET_COLS.any (fun c => isMissing (pyGet exRowMissing c)) = true ∧
    (row_is_valid exRowMissing).2 = some "Missing required columns: Email, NetID" := by
  refine ⟨by decide, ?_⟩
  have h := ((C4_validators exRowMissing).2.2 (by decide)).1
  rw [h]
  decide

end IBC

namespace IBC

/-! # C9: rows with no recognized person fields -/

theorem userPairs_eq_nil (row : Row)
    (h : ∀ p ∈ SHEET_COLS_TO_SQL_COLS, p.2 ∈ USERS_COLS → hasKey row p.1 = false) :
    userPairs row = [] := by
  unfold userPairs
  rw [List.filterMap_eq_nil]
  intro p hp
  split_ifs with hc
  · exact absurd hc.1 (by simp [h p hp hc.2])
  · rfl

theorem userUpdatePairs_eq_nil (row : Row)
    (h : ∀ p ∈ SHEET_COLS_TO_SQL_COLS, p.2 ∈ USERS_COLS → hasKey row p.1 = false) :
    userUpdatePairs row = [] := by
  unfold userUpdatePairs
  rw [List.filterMap_eq_nil]
  intro p hp
  split_ifs with hc
  · exact absurd hc.1 (by simp [h p hp hc.2.1])
  · rfl

/-- C9 (amended): for a row containing none of the recognized person
destination fields, `insert_into_users` fails with the "No valid user
columns found in row" error, but `update_existing_user` silently
returns with no write instead of failing. -/
theorem C9_no_destination_columns (row : Row) (db : DB) (uid : Nat)
    (h : ∀ p ∈ SHEET_COLS_TO_SQL_COLS, p.2 ∈ USERS_COLS → hasKey row p.1 = false) :
    insert_into_users row db = .error (.invalidFormat "No valid user columns found in row") ∧
    update_existing_user row uid db = .ok ((), db) := by
  constructor
  · simp [insert_into_users, userPairs_eq_nil row h]
  · simp [update_existing_user, userUpdatePairs_eq_nil row h]

/-- C9 counterexample: on the update path a row with none of the
recognized person fields succeeds as a silent no-op instead of failing
with the "no destination columns matched" error. -/
theorem C9_counterexample :
    update_existing_user exRowUnrecognized 1 exDBOneUser = .ok ((), exDBOneUser) := by
  decide

/-- C9 witness: the theorem applied to a concrete field-less row. -/
theorem C9_witness :
    (∀ p ∈ SHEET_COLS_TO_SQL_COLS, p.2 ∈ USERS_COLS → hasKey exRowUnrecognized p.1 = false) ∧
    insert_into_users exRowUnrecognized exDB0 =
      .error (.invalidFormat "No valid user columns found in row") :=
  ⟨by decide, (C9_no_destination_columns exRowUnrecognized exDB0 1 (by decide)).1⟩

/-! # C8: boolean coercion -/

/-- C8 (amended): `parse_boolean` maps trimmed case-insensitive
yes/true/1 to true, a native boolean to itself, and everything else
(including no/false/0) to false; on both the users insert path and the
users update path every boolean-typed destination column receives a
coerced native boolean.  (The fourth boolean-typed column — the
pre-finals-availability flag — is a consultants-table column and is
written uncoerced there, see the counterexample.) -/
theorem C8_boolean_coercion (v : Val) (row : Row) (k : String) (w : Val) :
    (parse_boolean v = true ↔
      (v = .bool true ∨ ∃ s, v = .str s ∧
        (pyLower (pyStrip s) = "yes" ∨ pyLower (pyStrip s) = "true" ∨
         pyLower (pyStrip s) = "1"))) ∧
    ((k, w) ∈ userPairs row → k ∈ boolean_cols → ∃ b, w = .bool b) ∧
    ((k, w) ∈ userUpdatePairs row → k ∈ boolean_cols → ∃ b, w = .bool b) := by
  refine ⟨?_, ?_, ?_⟩
  · cases v with
    | str s =>
        simp only [parse_boolean]
        split_ifs with h1 h2
        · simp [h1]
        · constructor
          · intro hf; exact absurd hf (by simp)
          · rintro (h | ⟨s2, hs2, hy⟩)
            · exact absurd h (by simp)
            · obtain rfl : s2 = s := by injection hs2.symm
              exact absurd hy h1
        · constructor
          · intro hf; exact absurd hf (by simp)
          · rintro (h | ⟨s2, hs2, hy⟩)
            · exact absurd h (by simp)
            · obtain rfl : s2 = s := by injection hs2.symm
              exact absurd hy h1
    | bool b => cases b <;> simp [parse_boolean]
    | int n => simp [parse_boolean]
    | null => simp [parse_boolean]
  · intro hm hk
    rw [userPairs, List.mem_filterMap] at hm
    obtain ⟨p, hp, hfp⟩ := hm
    split_ifs at hfp with hc hb
    · have h2 : (p.2, Val.bool (parse_boolean (pyGet row p.1))) = (k, w) := by
        simpa [emptyToNull] using hfp
      exact ⟨parse_boolean (pyGet row p.1), (congrArg Prod.snd h2).symm⟩
    · have h2 : (p.2, emptyToNull (pyGet row p.1)) = (k, w) := by
        simpa using hfp
      have hk3 : p.2 ∈ boolean_cols := by
        rw [show p.2 = k from congrArg Prod.fst h2]; exact hk
      exact absurd hk3 hb
  · intro hm hk
    rw [userUpdatePairs, List.mem_filterMap] at hm
    obtain ⟨p, hp, hfp⟩ := hm
    split_ifs at hfp with hc hb
    · have h2 : (p.2, Val.bool (parse_boolean (pyGet row p.1))) = (k, w) := by
        simpa [emptyToNull] using hfp
      exact ⟨parse_boolean (pyGet row p.1), (congrArg Prod.snd h2).symm⟩
    · have h2 : (p.2, emptyToNull (pyGet row p.1)) = (k, w) := by
        simpa using hfp
      have hk3 : p.2 ∈ boolean_cols := by
        rw [show p.2 = k from congrArg Prod.fst h2]; exact hk
      exact absurd hk3 hb

end IBC

namespace IBC

/-- C8 counterexample: the pre-finals-availability flag is written by
the consultants insert, which applies no boolean coercion: the raw
string "yes" is stored, not a coerced native boolean, so the claimed
coercion of all four boolean-typed destination columns is false. -/
theorem C8_counterexample :
    insert_into_consultants exRowWeekFinals 1 exDB0 =
      .ok ((), { exDB0 with consultants :=
        [[("week_before_finals_availability", .str "yes"), ("user_id", .int 1)]] }) := by
  decide

/-- C8 witness: the theorem applied to a concrete "yes" citizenship
value on the users insert path. -/
theorem C8_witness :
    (("us_citizen", Val.bool true) ∈ userPairs exRowCitizen ∧ "us_citizen" ∈ boolean_cols) ∧
    ∃ b, Val.bool true = Val.bool b :=
  ⟨⟨by decide, by decide⟩,
    (C8_boolean_coercion (.str "x") exRowCitizen "us_citizen" (.bool true)).2.1
      (by decide) (by decide)⟩

/-! # C7: rollback scope -/

/-- C7: the projects row loop shares one transaction for the whole
batch (single commit after the loop), so the `conn.rollback()` issued
for a failing row also discards the writes of earlier successful rows:
processing a succeeding project row followed by a failing one commits
nothing at all, contradicting per-row failure isolation. -/
theorem C7_rollback_discards_earlier_rows :
    (∃ db2, insert_project exDB0 exRowProjOk = .ok (some 1, db2) ∧
      db2.projects.length = 1) ∧
    runProjects [exRowProjOk, exRowProjGhost] exDB0 = exDB0 :=
  ⟨⟨exDBAfterP1, by decide, by decide⟩, by decide⟩

end IBC

namespace IBC

/-! # C6: role referential integrity -/

@[simp]
theorem except_bind_error {ε α β : Type} (e : ε) (f : α → Except ε β) :
    (Except.error e >>= f) = Except.error e := rfl

@[simp]
theorem except_bind_okay {ε α β : Type} (a : α) (f : α → Except ε β) :
    (Except.ok a >>= f) = f a := rfl

@[simp]
theorem except_pure {ε α : Type} (a : α) : (pure a : Except ε α) = Except.ok a := rfl

/-- A falsy role value resolves to null with no reads, writes or checks. -/
theorem get_role_falsy (db : DB) (v : Val) (rc : String)
    (h : pyTruthy v = false) :
    get_user_id_for_role_by_netid db v rc = .ok (none, db) := by
  unfold get_user_id_for_role_by_netid
  simp [h]

/-- A truthy netid string that does not resolve raises the
referential-integrity failure naming it. -/
theorem get_role_err (db : DB) (n : String) (rc : String)
    (hn : n ≠ "") (hl : get_user_id_by_netid db (.str n) = none) :
    get_user_id_for_role_by_netid db (.str n) rc = .error (.invalidFormat
      ("NetID '" ++ n ++ "' for role " ++ rc ++ " not found in database")) := by
  unfold get_user_id_for_role_by_netid
  simp [pyTruthy, hn, hl, pyStr]

theorem setCol_lookup_ne {cs : Cols} {k k2 : String} {v : Val} (h : k ≠ k2) :
    (setCol cs k2 v).lookup k = cs.lookup k := by
  induction cs with
  | nil =>
      show List.lookup k [(k2, v)] = List.lookup k []
      rw [List.lookup_cons]
      have hb : (k == k2) = false := by simp [h]
      rw [hb]
  | cons p rest ih =>
      obtain ⟨pk, pv⟩ := p
      show List.lookup k (if pk = k2 then (k2, v) :: rest else (pk, pv) :: setCol rest k2 v) =
        List.lookup k ((pk, pv) :: rest)
      split_ifs with hpk
      · subst hpk
        rw [List.lookup_cons, List.lookup_cons]
        have hb : (k == pk) = false := by simp [h]
        rw [hb]
      · rw [List.lookup_cons, List.lookup_cons]
        by_cases hk : k = pk
        · subst hk
          simp
        · have hb : (k == pk) = false := by simp [hk]
          rw [hb]
          exact ih

theorem role_update_netid_inv {db db' : DB} {uid : Nat} {rc : String}
    (h : update_user_role_if_needed db uid rc = .ok db') :
    ∀ w, get_user_id_by_netid db' w = get_user_id_by_netid db w := by
  intro w
  unfold update_user_role_if_needed at h
  cases hf : db.users.find? (fun u => u.1 = uid) with
  | none =>
      simp only [hf] at h
      exact Except.noConfusion h
  | some u =>
      simp only [hf] at h
      split_ifs at h with hr
      · injection h with h
        subst h
        rfl
      · injection h with h
        subst h
        cases w with
        | str s =>
            simp only [get_user_id_by_netid]
            split_ifs with hs
            · rfl
            · unfold findUserBy
              show (List.find? _ (db.users.map _)).map Prod.fst = _
              rw [List.find?_map]
              have hpg : ((fun u => sqlEq (getColV u.2 "netid") (Val.str s)) ∘
                  (fun w2 => if w2.1 = uid then
                    (w2.1, setCol w2.2 "curr_role" (Val.str rc)) else w2)) =
                  (fun u => sqlEq (getColV u.2 "netid") (Val.str s)) := by
                funext u2
                simp only [Function.comp]
                split_ifs with hu
                · show sqlEq (getColV (setCol u2.2 "curr_role" (Val.str rc)) "netid") _ = _
                  have hcol : getColV (setCol u2.2 "curr_role" (Val.str rc)) "netid" =
                      getColV u2.2 "netid" := by
                    unfold getColV
                    rw [setCol_lookup_ne (by decide)]
                  rw [hcol]
                · rfl
              rw [hpg, Option.map_map]
              have hfg : (Prod.fst ∘ (fun w2 : Nat × Cols =>
                  if w2.1 = uid then (w2.1, setCol w2.2 "curr_role" (Val.str rc)) else w2)) =
                  (Prod.fst : Nat × Cols → Nat) := by
                funext u2
                simp only [Function.comp]
                split_ifs <;> rfl
              rw [hfg]
        | bool b => rfl
        | int n => rfl
        | null => rfl

theorem resolve_ok_netid_inv {db db' : DB} {v : Val} {rc : String} {o : Option Nat}
    (h : get_user_id_for_role_by_netid db v rc = .ok (o, db')) :
    ∀ w, get_user_id_by_netid db' w = get_user_id_by_netid db w := by
  unfold get_user_id_for_role_by_netid at h
  by_cases ht : pyTruthy v = true
  · rw [if_neg (by simp [ht])] at h
    cases hl : get_user_id_by_netid db v with
    | none =>
        simp only [hl] at h
        exact Except.noConfusion h
    | some uid =>
        simp only [hl] at h
        cases hr : update_user_role_if_needed db uid rc with
        | error e =>
            simp only [hr, except_bind_error] at h
            exact Except.noConfusion h
        | ok db1 =>
            simp only [hr, except_bind_okay, except_pure] at h
            injection h with h
            have hdb : db1 = db' := congrArg Prod.snd h
            subst hdb
            exact role_update_netid_inv hr
  · rw [if_pos ht] at h
    injection h with h
    have hdb : db = db' := congrArg Prod.snd h
    subst hdb
    intro w
    rfl

theorem user_exists_of_netid {db : DB} {v : Val} {uid : Nat}
    (h : get_user_id_by_netid db v = some uid) :
    ∃ u ∈ db.users, u.1 = uid := by
  cases v with
  | str s =>
      simp only [get_user_id_by_netid] at h
      split_ifs at h with hs
      unfold findUserBy at h
      cases hf : List.find? (fun u => sqlEq (getColV u.2 "netid") (Val.str s)) db.users with
      | none => rw [hf] at h; exact Option.noConfusion h
      | some u =>
          rw [hf] at h
          simp only [Option.map_some'] at h
          injection h with h
          exact ⟨u, List.mem_of_find?_eq_some hf, h⟩
  | bool b => exact Option.noConfusion h
  | int n => exact Option.noConfusion h
  | null => exact Option.noConfusion h

theorem resolve_err_inv {db : DB} {v : Val} {rc : String} {e : PErr}
    (h : get_user_id_for_role_by_netid db v rc = .error e) :
    pyTruthy v = true ∧ get_user_id_by_netid db v = none ∧
      e = .invalidFormat
        ("NetID '" ++ pyStr v ++ "' for role " ++ rc ++ " not found in database") := by
  unfold get_user_id_for_role_by_netid at h
  by_cases ht : pyTruthy v = true
  · rw [if_neg (by simp [ht])] at h
    cases hl : get_user_id_by_netid db v with
    | none =>
        simp only [hl] at h
        injection h with h
        exact ⟨ht, rfl, h.symm⟩
    | some uid =>
        exfalso
        simp only [hl] at h
        cases hr : update_user_role_if_needed db uid rc with
        | error e2 =>
            obtain ⟨u, hu, he⟩ := user_exists_of_netid hl
            unfold update_user_role_if_needed at hr
            cases hf : db.users.find? (fun w => w.1 = uid) with
            | none =>
                have := List.find?_eq_none.mp hf u hu
                simp [he] at this
            | some u2 =>
                simp only [hf] at hr
                split_ifs at hr
        | ok db1 =>
            simp only [hr, except_bind_okay, except_pure] at h
            exact Except.noConfusion h
  · rw [if_pos ht] at h
    exact Except.noConfusion h

theorem insert_project_role_fail (db : DB) (row : Row) (slot rc : String) (n : String)
    (hmem : (slot, rc) ∈ roleSlots)
    (hv : pyGet row slot = .str n) (hn : n ≠ "")
    (hlk : get_user_id_by_netid db (.str n) = none) :
    ∃ slot2 rc2 v2, (slot2, rc2) ∈ roleSlots ∧ pyGet row slot2 = v2 ∧
      pyTruthy v2 = true ∧ get_user_id_by_netid db v2 = none ∧
      insert_project db row = .error (.invalidFormat
        ("NetID '" ++ pyStr v2 ++ "' for role " ++ rc2 ++ " not found in database")) := by
  have hvt : pyTruthy (pyGet row slot) = true := by
    rw [hv]
    simp [pyTruthy, hn]
  have hvn : get_user_id_by_netid db (pyGet row slot) = none := by
    rw [hv]
    exact hlk
  cases h1 : get_user_id_for_role_by_netid db (pyGet row "em_netid") "EM" with
  | error e =>
      obtain ⟨ht1, hn1, he1⟩ := resolve_err_inv h1
      refine ⟨"em_netid", "EM", pyGet row "em_netid", by decide, rfl, ht1, hn1, ?_⟩
      subst he1
      unfold insert_project
      cases hpe : project_exists db (pyGet row "project_name") with
      | some pid =>
          simp only [hpe]
          unfold update_project
          simp only [h1, except_bind_error]
      | none =>
          simp only [hpe, h1, except_bind_error]
  | ok p1 =>
  obtain ⟨em, db1⟩ := p1
  have hI1 : ∀ w, get_user_id_by_netid db1 w = get_user_id_by_netid db w :=
    resolve_ok_netid_inv h1
  cases h2 : get_user_id_for_role_by_netid db1 (pyGet row "sm_netid") "SM" with
  | error e =>
      obtain ⟨ht2, hn2, he2⟩ := resolve_err_inv h2
      refine ⟨"sm_netid", "SM", pyGet row "sm_netid", by decide, rfl, ht2,
        by rw [← hI1]; exact hn2, ?_⟩
      subst he2
      unfold insert_project
      cases hpe : project_exists db (pyGet row "project_name") with
      | some pid =>
          simp only [hpe]
          unfold update_project
          simp only [h1, except_bind_okay, h2, except_bind_error]
      | none =>
          simp only [hpe, h1, except_bind_okay, h2, except_bind_error]
  | ok p2 =>
  obtain ⟨sm, db2⟩ := p2
  have hI2 : ∀ w, get_user_id_by_netid db2 w = get_user_id_by_netid db w :=
    fun w => (resolve_ok_netid_inv h2 w).trans (hI1 w)
  cases h3 : get_user_id_for_role_by_netid db2 (pyGet row "pm_netid") "PM" with
  | error e =>
      obtain ⟨ht3, hn3, he3⟩ := resolve_err_inv h3
      refine ⟨"pm_netid", "PM", pyGet row "pm_netid", by decide, rfl, ht3,
        by rw [← hI2]; exact hn3, ?_⟩
      subst he3
      unfold insert_project
      cases hpe : project_exists db (pyGet row "project_name") with
      | some pid =>
          simp only [hpe]
          unfold update_project
          simp only [h1, except_bind_okay, h2, h3, except_bind_error]
      | none =>
          simp only [hpe, h1, except_bind_okay, h2, h3, except_bind_error]
  | ok p3 =>
  obtain ⟨pm, db3⟩ := p3
  have hI3 : ∀ w, get_user_id_by_netid db3 w = get_user_id_by_netid db w :=
    fun w => (resolve_ok_netid_inv h3 w).trans (hI2 w)
  cases h4 : get_user_id_for_role_by_netid db3 (pyGet row "sc1_netid") "SC" with
  | error e =>
      obtain ⟨ht4, hn4, he4⟩ := resolve_err_inv h4
      refine ⟨"sc1_netid", "SC", pyGet row "sc1_netid", by decide, rfl, ht4,
        by rw [← hI3]; exact hn4, ?_⟩
      subst he4
      unfold insert_project
      cases hpe : project_exists db (pyGet row "project_name") with
      | some pid =>
          simp only [hpe]
          unfold update_project
          simp only [h1, except_bind_okay, h2, h3, h4, except_bind_error]
      | none =>
          simp only [hpe, h1, except_bind_okay, h2, h3, h4, except_bind_error]
  | ok p4 =>
  obtain ⟨sc1, db4⟩ := p4
  have hI4 : ∀ w, get_user_id_by_netid db4 w = get_user_id_by_netid db w :=
    fun w => (resolve_ok_netid_inv h4 w).trans (hI3 w)
  cases h5 : get_user_id_for_role_by_netid db4 (pyGet row "sc2_netid") "SC" with
  | error e =>
      obtain ⟨ht5, hn5, he5⟩ := resolve_err_inv h5
      refine ⟨"sc2_netid", "SC", pyGet row "sc2_netid", by decide, rfl, ht5,
        by rw [← hI4]; exact hn5, ?_⟩
      subst he5
      unfold insert_project
      cases hpe : project_exists db (pyGet row "project_name") with
      | some pid =>
          simp only [hpe]
          unfold update_project
          simp only [h1, except_bind_okay, h2, h3, h4, h5, except_bind_error]
      | none =>
          simp only [hpe, h1, except_bind_okay, h2, h3, h4, h5, except_bind_error]
  | ok p5 =>
  exfalso
  simp only [roleSlots, List.mem_cons, List.not_mem_nil, or_false] at hmem
  rcases hmem with hm | hm | hm | hm | hm <;>
    (obtain ⟨rfl, rfl⟩ : slot = _ ∧ rc = _ := Prod.mk.injEq .. ▸ hm)
  · unfold get_user_id_for_role_by_netid at h1
    rw [if_neg (by simp [hvt])] at h1
    simp only [hvn] at h1
    exact Except.noConfusion h1
  · unfold get_user_id_for_role_by_netid at h2
    rw [if_neg (by simp [hvt])] at h2
    simp only [hI1, hvn] at h2
    exact Except.noConfusion h2
  · unfold get_user_id_for_role_by_netid at h3
    rw [if_neg (by simp [hvt])] at h3
    simp only [hI2, hvn] at h3
    exact Except.noConfusion h3
  · unfold get_user_id_for_role_by_netid at h4
    rw [if_neg (by simp [hvt])] at h4
    simp only [hI3, hvn] at h4
    exact Except.noConfusion h4
  · unfold get_user_id_for_role_by_netid at h5
    rw [if_neg (by simp [hvt])] at h5
    simp only [hI4, hvn] at h5
    exact Except.noConfusion h5

/-- C6: a project row holding a non-blank role value that does not
resolve to an existing person fails with the referential-integrity
violation naming an unresolved value of the row (the first failing slot
in resolution order), even when other role slots resolve first; the
failing row's processing leaves the store untouched (the loop rolls
back to the row-start state) and the batch continues with the remaining
rows; a blank (falsy) role value instead yields null with no existence
or role-consistency checks, and the normalizer turns an
absent/null/whitespace manager slot into null. -/
theorem C6_role_referential_integrity :
    (∀ (db : DB) (v : Val) (rc : String), pyTruthy v = false →
      get_user_id_for_role_by_netid db v rc = .ok (none, db)) ∧
    (∀ (db : DB) (row : Row) (slot rc : String) (n : String),
      (slot, rc) ∈ roleSlots →
      pyGet row slot = .str n → n ≠ "" →
      get_user_id_by_netid db (.str n) = none →
      ∃ slot2 rc2 v2, (slot2, rc2) ∈ roleSlots ∧ pyGet row slot2 = v2 ∧
        pyTruthy v2 = true ∧ get_user_id_by_netid db v2 = none ∧
        insert_project db row = .error (.invalidFormat
          ("NetID '" ++ pyStr v2 ++ "' for role " ++ rc2 ++ " not found in database"))) ∧
    (∀ (db : DB) (row : Row) (rest : List Row) (e : PErr),
      insert_project db row = .error e →
      projectsLoop (row :: rest) ⟨db, db⟩ = projectsLoop rest ⟨db, db⟩) ∧
    (∀ raw : Row,
      (∀ c ∈ ["em_netid", "EM net-id", "EM NetID"],
        ¬ (hasKey raw c = true ∧ pyGet raw c ≠ .null ∧
            pyStrip (pyStr (pyGet raw c)) ≠ "")) →
      pyGet (normalize_project_row raw) "em_netid" = .null) := by
  refine ⟨get_role_falsy, insert_project_role_fail, ?_, ?_⟩
  · intro db row rest e h
    simp [projectsLoop, h, Conn.rollbackTx]
  · intro raw h
    have hfind : (["em_netid", "EM net-id", "EM NetID"].find? (fun c =>
        hasKey raw c && decide (pyGet raw c ≠ .null)
          && decide (pyStrip (pyStr (pyGet raw c)) ≠ ""))) = none := by
      rw [List.find?_eq_none]
      intro c hc
      have := h c hc
      simp only [Bool.and_eq_true, decide_eq_true_eq]
      tauto
    unfold normalize_project_row
    simp only [KEY_MAP, List.map_cons, List.map_nil, hfind]
    simp [pyGet, List.lookup_append, List.lookup_cons]

end IBC

namespace IBC

/-! # Availability encoder lemmas -/

theorem parseDay_dayName (d : Weekday) : parseDay (dayName d) = some d := by
  cases d <;> decide

theorem parseDay_iff {t : String} {d : Weekday} :
    parseDay t = some d ↔ t = dayName d := by
  constructor
  · intro h
    unfold parseDay at h
    split_ifs at h with h1 h2 h3 h4 h5 h6 h7 <;>
      (injection h with h; subst h; assumption)
  · rintro rfl
    exact parseDay_dayName d

theorem dayName_inj {d e : Weekday} (h : dayName d = dayName e) : d = e := by
  have h1 := parseDay_dayName d
  rw [h, parseDay_dayName] at h1
  injection h1 with h2
  exact h2.symm

theorem dayName_ne_empty (d : Weekday) : dayName d ≠ "" := by
  cases d <;> decide

theorem setDay_eq {a : DayBits} {d : Weekday} {i : Nat} {a' : DayBits}
    (h : setDay a d i = some a') :
    i < (a d).length ∧ a' d = (a d).set i '1' ∧ ∀ e, e ≠ d → a' e = a e := by
  unfold setDay listSet1 at h
  split_ifs at h with hlt
  · injection h with h
    subst h
    exact ⟨hlt, by simp, fun e he => by simp [he]⟩

theorem setDay_none {a : DayBits} {d : Weekday} {i : Nat}
    (h : ¬ i < (a d).length) : setDay a d i = none := by
  unfold setDay listSet1
  simp [h]

theorem applyTokens_spec : ∀ (ts : List String) (a : DayBits) (i : Nat) (a' : DayBits),
    applyTokens a i ts = some a' →
    (∀ e, (a' e).length = (a e).length) ∧
    (∀ e j, j ≠ i → (a' e).get? j = (a e).get? j) ∧
    (∀ d, ((a' d).get? i = some '1' ↔
      ((a d).get? i = some '1' ∨ dayName d ∈ ts))) := by
  intro ts
  induction ts with
  | nil =>
      intro a i a' h
      injection h with h
      subst h
      exact ⟨fun _ => rfl, fun _ _ _ => rfl, fun d => by simp⟩
  | cons t ts ih =>
      intro a i a' h
      unfold applyTokens at h
      cases hp : parseDay t with
      | none =>
          simp only [hp] at h
          obtain ⟨hlen, hne, hbit⟩ := ih a i a' h
          refine ⟨hlen, hne, fun d => ?_⟩
          rw [hbit d, List.mem_cons]
          constructor
          · rintro (h1 | h1)
            · exact Or.inl h1
            · exact Or.inr (Or.inr h1)
          · rintro (h1 | h1 | h1)
            · exact Or.inl h1
            · exact absurd (h1 ▸ hp) (by rw [parseDay_dayName]; simp)
            · exact Or.inr h1
      | some d0 =>
          simp only [hp] at h
          cases hs : setDay a d0 i with
          | none => simp only [hs] at h; exact Option.noConfusion h
          | some a2 =>
              simp only [hs] at h
              obtain ⟨hi, ha2d, ha2o⟩ := setDay_eq hs
              obtain ⟨hlen, hne, hbit⟩ := ih a2 i a' h
              have hlen2 : ∀ e, (a2 e).length = (a e).length := by
                intro e
                by_cases hed : e = d0
                · subst hed; rw [ha2d, List.length_set]
                · rw [ha2o e hed]
              have ht : t = dayName d0 := parseDay_iff.mp hp
              refine ⟨fun e => (hlen e).trans (hlen2 e), ?_, ?_⟩
              · intro e j hj
                rw [hne e j hj]
                by_cases hed : e = d0
                · subst hed
                  rw [ha2d, List.get?_set, if_neg (fun hh => hj hh.symm)]
                · rw [ha2o e hed]
              · intro d
                rw [hbit d]
                by_cases hdd : d = d0
                · subst hdd
                  have hset : (a2 d).get? i = some '1' := by
                    rw [ha2d, List.get?_set]
                    simp only [if_pos rfl]
                    rw [List.get?_eq_get hi]
                    rfl
                  constructor
                  · intro _
                    right
                    rw [ht]
                    exact List.mem_cons_self _ _
                  · intro _
                    left
                    exact hset
                · rw [ha2o d hdd, List.mem_cons]
                  constructor
                  · rintro (h1 | h1)
                    · exact Or.inl h1
                    · exact Or.inr (Or.inr h1)
                  · rintro (h1 | h1 | h1)
                    · exact Or.inl h1
                    · exact absurd (dayName_inj (ht ▸ h1.symm)).symm hdd
                    · exact Or.inr h1

end IBC

namespace IBC

/-! # Blank-value lemmas for the encoder -/

theorem strip_empty_all_space {s : String} (h : pyStrip s = "") :
    ∀ c ∈ s.data, isSpaceChar c := by
  intro c hc
  have hl : ((s.data.dropWhile isSpaceChar).reverse.dropWhile isSpaceChar).reverse = [] :=
    congrArg String.data h
  rw [List.reverse_eq_nil_iff, List.dropWhile_eq_nil_iff] at hl
  have hdrop : ∀ x ∈ s.data.dropWhile isSpaceChar, isSpaceChar x := by
    intro x hx
    exact hl x (List.mem_reverse.mpr hx)
  rcases List.mem_append.mp
      (by rw [List.takeWhile_append_dropWhile isSpaceChar s.data]; exact hc) with h1 | h1
  · exact List.mem_takeWhile_imp h1
  · exact hdrop _ h1

theorem strip_of_all_space {s : String} (h : ∀ c ∈ s.data, isSpaceChar c) :
    pyStrip s = "" := by
  unfold pyStrip
  rw [List.dropWhile_eq_nil_iff.mpr h]
  rfl

theorem splitCommaAux_chars : ∀ (l acc chunk : List Char),
    chunk ∈ splitCommaAux l acc → ∀ c ∈ chunk, c ∈ l ∨ c ∈ acc := by
  intro l
  induction l with
  | nil =>
      intro acc chunk hchunk c hc
      unfold splitCommaAux at hchunk
      simp at hchunk
      subst hchunk
      exact Or.inr (List.mem_reverse.mp hc)
  | cons x xs ih =>
      intro acc chunk hchunk c hc
      unfold splitCommaAux at hchunk
      split_ifs at hchunk with hx
      · rcases List.mem_cons.mp hchunk with h1 | h1
        · subst h1
          exact Or.inr (List.mem_reverse.mp hc)
        · rcases ih [] chunk h1 c hc with h2 | h2
          · exact Or.inl (List.mem_cons_of_mem _ h2)
          · simp at h2
      · rcases ih (x :: acc) chunk hchunk c hc with h2 | h2
        · exact Or.inl (List.mem_cons_of_mem _ h2)
        · rcases List.mem_cons.mp h2 with h3 | h3
          · exact Or.inl (h3 ▸ List.mem_cons_self _ _)
          · exact Or.inr h3

theorem mem_splitDays_blank {v : String} (hb : pyStrip v = "") (d : Weekday) :
    dayName d ∉ splitDays v := by
  intro hmem
  rw [splitDays, List.mem_map] at hmem
  obtain ⟨t, ht, heq⟩ := hmem
  rw [pySplitComma, List.mem_map] at ht
  obtain ⟨chunk, hchunk, rfl⟩ := ht
  have hall := strip_empty_all_space hb
  have hchars : ∀ c ∈ chunk, isSpaceChar c := by
    intro c hc
    rcases splitCommaAux_chars v.data [] chunk hchunk c hc with h1 | h1
    · exact hall c h1
    · simp at h1
  have hstrip : pyStrip (String.mk chunk) = "" :=
    strip_of_all_space (by simpa using hchars)
  rw [hstrip] at heq
  have hempty : dayName d = "" := by rw [← heq]; rfl
  exact dayName_ne_empty d hempty

end IBC

namespace IBC

/-! # Slot-loop lemmas -/

theorem processSlots_lodiff : ∀ (slots : List String) (row : SRow) (a : DayBits)
    (k : Nat) (a' : DayBits), processSlots row a k slots = some a' →
    ∀ e j, j < k → (a' e).get? j = (a e).get? j := by
  intro slots
  induction slots with
  | nil =>
      intro row a k a' h e j _
      injection h with h
      subst h
      rfl
  | cons slot rest ih =>
      intro row a k a' h e j hj
      unfold processSlots at h
      split_ifs at h with hb
      · exact ih row a (k + 1) a' h e j (Nat.lt_succ_of_lt hj)
      · cases ha : applyTokens a k (splitDays (getSlot row slot)) with
        | none => simp only [ha] at h; exact Option.noConfusion h
        | some a2 =>
            simp only [ha] at h
            rw [ih row a2 (k + 1) a' h e j (Nat.lt_succ_of_lt hj)]
            exact (applyTokens_spec _ a k a2 ha).2.1 e j (Nat.ne_of_lt hj)

theorem applyTokens_chars : ∀ (ts : List String) (a : DayBits) (i : Nat) (a' : DayBits),
    applyTokens a i ts = some a' →
    (∀ e c, c ∈ a e → c = '0' ∨ c = '1') →
    ∀ e c, c ∈ a' e → c = '0' ∨ c = '1' := by
  intro ts
  induction ts with
  | nil =>
      intro a i a' h hc
      injection h with h
      subst h
      exact hc
  | cons t ts ih =>
      intro a i a' h hc
      unfold applyTokens at h
      cases hp : parseDay t with
      | none =>
          simp only [hp] at h
          exact ih a i a' h hc
      | some d0 =>
          simp only [hp] at h
          cases hs : setDay a d0 i with
          | none => simp only [hs] at h; exact Option.noConfusion h
          | some a2 =>
              simp only [hs] at h
              obtain ⟨_, ha2d, ha2o⟩ := setDay_eq hs
              refine ih a2 i a' h ?_
              intro e c hce
              by_cases hed : e = d0
              · subst hed
                rw [ha2d] at hce
                rcases List.mem_or_eq_of_mem_set hce with h1 | h1
                · exact hc e c h1
                · exact Or.inr h1
              · rw [ha2o e hed] at hce
                exact hc e c hce

theorem processSlots_preserve : ∀ (slots : List String) (row : SRow) (a : DayBits)
    (k : Nat) (a' : DayBits), processSlots row a k slots = some a' →
    (∀ e, (a' e).length = (a e).length) ∧
    ((∀ e c, c ∈ a e → c = '0' ∨ c = '1') →
      ∀ e c, c ∈ a' e → c = '0' ∨ c = '1') := by
  intro slots
  induction slots with
  | nil =>
      intro row a k a' h
      injection h with h
      subst h
      exact ⟨fun _ => rfl, fun hc => hc⟩
  | cons slot rest ih =>
      intro row a k a' h
      unfold processSlots at h
      split_ifs at h with hb
      · exact ih row a (k + 1) a' h
      · cases ha : applyTokens a k (splitDays (getSlot row slot)) with
        | none => simp only [ha] at h; exact Option.noConfusion h
        | some a2 =>
            simp only [ha] at h
            obtain ⟨hlen, hchars⟩ := ih row a2 (k + 1) a' h
            have hlen2 := (applyTokens_spec _ a k a2 ha).1
            refine ⟨fun e => (hlen e).trans (hlen2 e), fun hc => ?_⟩
            exact hchars (applyTokens_chars _ a k a2 ha hc)

theorem processSlots_spec : ∀ (slots : List String) (row : SRow) (a : DayBits)
    (k : Nat) (a' : DayBits), processSlots row a k slots = some a' →
    (∀ e j, k ≤ j → (a e).get? j ≠ some '1') →
    ∀ m (hm : m < slots.length) (d : Weekday),
      ((a' d).get? (k + m) = some '1' ↔
        dayName d ∈ splitDays (getSlot row (slots.get ⟨m, hm⟩))) := by
  intro slots
  induction slots with
  | nil =>
      intro row a k a' _ _ m hm
      exact absurd hm (by simp)
  | cons slot rest ih =>
      intro row a k a' h hzero m hm d
      unfold processSlots at h
      split_ifs at h with hb
      · cases m with
        | zero =>
            have h1 := processSlots_lodiff rest row a (k + 1) a' h d k (Nat.lt_succ_self k)
            rw [Nat.add_zero, h1]
            constructor
            · intro hc
              exact absurd hc (hzero d k (le_refl k))
            · intro hc
              exact absurd hc (mem_splitDays_blank hb d)
        | succ m2 =>
            have hzero2 : ∀ e j, k + 1 ≤ j → (a e).get? j ≠ some '1' :=
              fun e j hj => hzero e j (Nat.le_of_succ_le hj)
            have hidx : k + (m2 + 1) = (k + 1) + m2 := by omega
            rw [hidx]
            exact ih row a (k + 1) a' h hzero2 m2 (Nat.lt_of_succ_lt_succ hm) d
      · cases ha : applyTokens a k (splitDays (getSlot row slot)) with
        | none => simp only [ha] at h; exact Option.noConfusion h
        | some a2 =>
            simp only [ha] at h
            cases m with
            | zero =>
                have h1 := processSlots_lodiff rest row a2 (k + 1) a' h d k (Nat.lt_succ_self k)
                rw [Nat.add_zero, h1, (applyTokens_spec _ a k a2 ha).2.2 d]
                constructor
                · rintro (hc | hc)
                  · exact absurd hc (hzero d k (le_refl k))
                  · exact hc
                · intro hc
                  exact Or.inr hc
            | succ m2 =>
                have hzero2 : ∀ e j, k + 1 ≤ j → (a2 e).get? j ≠ some '1' := by
                  intro e j hj
                  rw [(applyTokens_spec _ a k a2 ha).2.1 e j (by omega)]
                  exact hzero e j (by omega)
                have hidx : k + (m2 + 1) = (k + 1) + m2 := by omega
                rw [hidx]
                exact ih row a2 (k + 1) a' h hzero2 m2 (Nat.lt_of_succ_lt_succ hm) d

end IBC

namespace IBC

/-! # Totality and failure of the encoder -/

theorem initBits_length : ∀ e, (initBits e).length = 30 := by
  intro e
  unfold initBits
  exact List.length_replicate 30 '0'

theorem initBits_not_one (e : Weekday) (j : Nat) : (initBits e).get? j ≠ some '1' := by
  unfold initBits
  rcases lt_or_ge j 30 with h | h
  · rw [List.get?_eq_getElem?, List.getElem?_replicate, if_pos h]
    simp
  · rw [List.get?_eq_none.mpr (by simpa using h)]
    simp

theorem initBits_chars : ∀ e c, c ∈ initBits e → c = '0' ∨ c = '1' := by
  intro e c hc
  unfold initBits at hc
  rw [List.eq_of_mem_replicate hc]
  exact Or.inl rfl

theorem applyTokens_total : ∀ (ts : List String) (a : DayBits) (i : Nat),
    (∀ e, (a e).length = 30) → i < 30 →
    ∃ a2, applyTokens a i ts = some a2 ∧ ∀ e, (a2 e).length = 30 := by
  intro ts
  induction ts with
  | nil =>
      intro a i hlen _
      exact ⟨a, rfl, hlen⟩
  | cons t ts ih =>
      intro a i hlen hi
      unfold applyTokens
      cases hp : parseDay t with
      | none =>
          simp only [hp]
          exact ih a i hlen hi
      | some d0 =>
          simp only [hp]
          have hlt : i < (a d0).length := by rw [hlen d0]; exact hi
          cases hs : setDay a d0 i with
          | none => exact absurd hs (by unfold setDay listSet1; simp [hlt])
          | some a2 =>
              obtain ⟨_, ha2d, ha2o⟩ := setDay_eq hs
              have hlen2 : ∀ e, (a2 e).length = 30 := by
                intro e
                by_cases hed : e = d0
                · subst hed
                  rw [ha2d, List.length_set]
                  exact hlen _
                · rw [ha2o e hed]
                  exact hlen e
              simp only [hs]
              exact ih a2 i hlen2 hi

theorem processSlots_total : ∀ (slots : List String) (row : SRow) (a : DayBits) (k : Nat),
    (∀ e, (a e).length = 30) → k + slots.length ≤ 30 →
    (processSlots row a k slots).isSome = true := by
  intro slots
  induction slots with
  | nil =>
      intro row a k _ _
      simp [processSlots]
  | cons slot rest ih =>
      intro row a k hlen hle
      rw [List.length_cons] at hle
      unfold processSlots
      split_ifs with hb
      · exact ih row a (k + 1) hlen (by omega)
      · obtain ⟨a2, ha2, hlen2⟩ :=
          applyTokens_total (splitDays (getSlot row slot)) a k hlen (by omega)
        simp only [ha2]
        exact ih row a2 (k + 1) hlen2 (by omega)

theorem applyTokens_fail : ∀ (ts : List String) (a : DayBits) (i : Nat) (d : Weekday),
    (∀ e, (a e).length = 30) → 30 ≤ i → dayName d ∈ ts →
    applyTokens a i ts = none := by
  intro ts
  induction ts with
  | nil =>
      intro a i d _ _ hmem
      simp at hmem
  | cons t ts ih =>
      intro a i d hlen hi hmem
      unfold applyTokens
      cases hp : parseDay t with
      | none =>
          simp only [hp]
          rcases List.mem_cons.mp hmem with h1 | h1
          · exact absurd (h1 ▸ hp) (by rw [parseDay_dayName]; simp)
          · exact ih a i d hlen hi h1
      | some d0 =>
          simp only [hp]
          have hnone : setDay a d0 i = none := setDay_none (by rw [hlen d0]; omega)
          simp only [hnone]

theorem processSlots_fail : ∀ (slots : List String) (row : SRow) (a : DayBits) (k : Nat),
    (∀ e, (a e).length = 30) →
    ∀ m (hm : m < slots.length) (d : Weekday), 30 ≤ k + m →
    dayName d ∈ splitDays (getSlot row (slots.get ⟨m, hm⟩)) →
    processSlots row a k slots = none := by
  intro slots
  induction slots with
  | nil =>
      intro row a k _ m hm
      exact absurd hm (by simp)
  | cons slot rest ih =>
      intro row a k hlen m hm d hge hmem
      unfold processSlots
      cases m with
      | zero =>
          have hsval : dayName d ∈ splitDays (getSlot row slot) := by simpa using hmem
          have hnb : ¬ pyStrip (getSlot row slot) = "" := by
            intro hb
            exact mem_splitDays_blank hb d hsval
          rw [if_neg hnb, applyTokens_fail _ a k d hlen (by omega) hsval]
      | succ m2 =>
          split_ifs with hb
          · exact ih row a (k + 1) hlen m2 (Nat.lt_of_succ_lt_succ hm) d (by omega)
              (by simpa using hmem)
          · cases ha : applyTokens a k (splitDays (getSlot row slot)) with
            | none => simp only [ha]
            | some a2 =>
                simp only [ha]
                have hlen2 : ∀ e, (a2 e).length = 30 := by
                  intro e
                  rw [(applyTokens_spec _ a k a2 ha).1 e]
                  exact hlen e
                exact ih row a2 (k + 1) hlen2 m2 (Nat.lt_of_succ_lt_succ hm) d (by omega)
                  (by simpa using hmem)

end IBC

namespace IBC

/-! # C2, C3, C10: the availability encoder claims -/

/-- C2 counterexample: with a one-slot catalogue derived from the
batch's first row, the encoder succeeds and returns a Monday string of
length 30, not of length 1 = catalogue size, so "strings whose length
equals the size of the slot catalogue" is false as stated. -/
theorem C2_counterexample :
    availLen (build_availability_sql_columns exFirstRowOneSlot
        (time_slots exFirstRowOneSlot)) .mon = some 30 ∧
    (time_slots exFirstRowOneSlot).length = 1 ∧
    availLen (build_availability_sql_columns exFirstRowOneSlot
        (time_slots exFirstRowOneSlot)) .mon ≠
      some ((time_slots exFirstRowOneSlot).length) := by
  refine ⟨by decide, by decide, by decide⟩

/-- C2 (amended): whenever the encoder succeeds on a row against the
catalogue derived from the batch's first row, it returns one string per
each of the 7 weekdays, each of the fixed length 30 (regardless of the
catalogue size), with every character in {'0','1'}. -/
theorem C2_availability_shape (first row : SRow) (d : Weekday)
    (h : (build_availability_sql_columns row (time_slots first)).isSome = true) :
    availLen (build_availability_sql_columns row (time_slots first)) d = some 30 ∧
    availChars01 (build_availability_sql_columns row (time_slots first)) d = true := by
  obtain ⟨a, ha⟩ := Option.isSome_iff_exists.mp h
  obtain ⟨hlen, hchars⟩ := processSlots_preserve (time_slots first) row initBits 0 a ha
  rw [ha]
  constructor
  · unfold availLen availString
    rw [Option.map_some']
    have h1 : (String.mk (a d)).length = (a d).length := rfl
    rw [h1, hlen d, initBits_length d]
  · unfold availChars01
    rw [List.all_eq_true]
    intro c hc
    have := hchars initBits_chars d c hc
    simpa using this

/-- C2 witness: the amended theorem applied to a concrete one-slot batch. -/
theorem C2_witness :
    (build_availability_sql_columns exRowDays (time_slots exRowDays)).isSome = true ∧
    (availLen (build_availability_sql_columns exRowDays (time_slots exRowDays))
        .mon = some 30 ∧
      availChars01 (build_availability_sql_columns exRowDays (time_slots exRowDays))
        .mon = true) :=
  ⟨by decide, C2_availability_shape exRowDays exRowDays .mon (by decide)⟩

end IBC

namespace IBC

/-- C3: on every successful encoding, position i of weekday d's output
string is '1' iff the row's value for the catalogue slot at ordinal
position i, split on commas with each token trimmed and lower-cased,
contains d's name — so the bit positions decode back to exactly the set
of recognized day names present in the input, order-independent, with
duplicates collapsed and unrecognized tokens ignored. -/
theorem C3_bit_correspondence (row : SRow) (slots : List String) (i : Nat)
    (hi : i < slots.length) (d : Weekday)
    (h : (build_availability_sql_columns row slots).isSome = true) :
    (availBit (build_availability_sql_columns row slots) d i = some '1' ↔
      dayName d ∈ splitDays (getSlot row (slots.get ⟨i, hi⟩))) := by
  obtain ⟨a, ha⟩ := Option.isSome_iff_exists.mp h
  rw [ha]
  unfold availBit
  have hmain := processSlots_spec slots row initBits 0 a ha
    (fun e j _ => initBits_not_one e j) i hi d
  simpa using hmain

/-- C3 witness: the theorem applied to a one-slot catalogue and the row
answering "Monday, Wednesday". -/
theorem C3_witness :
    ((0 : Nat) < exSlots1.length ∧
      (build_availability_sql_columns exRowDays exSlots1).isSome = true) ∧
    (availBit (build_availability_sql_columns exRowDays exSlots1) .mon 0 = some '1' ↔
      dayName .mon ∈ splitDays (getSlot exRowDays (exSlots1.get ⟨0, by decide⟩))) :=
  ⟨⟨by decide, by decide⟩,
    C3_bit_correspondence exRowDays exSlots1 0 (by decide) .mon (by decide)⟩

/-- C10: the encoder is total exactly up to 30 catalogue slots: for a
catalogue derived from a first row with at most 30 marker headers it
always succeeds, while for any catalogue slot at position ≥ 30 whose
row value contains a recognized day name the whole encoding fails with
the index-out-of-range outcome (`none`) instead of returning a vector
set. -/
theorem C10_thirty_slot_bound :
    (∀ fr row : SRow, (time_slots fr).length ≤ 30 →
      (build_availability_sql_columns row (time_slots fr)).isSome = true) ∧
    (∀ (fr row : SRow) (i : Nat) (hi : i < (time_slots fr).length) (d : Weekday),
      30 ≤ i →
      dayName d ∈ splitDays (getSlot row ((time_slots fr).get ⟨i, hi⟩)) →
      build_availability_sql_columns row (time_slots fr) = none) := by
  constructor
  · intro fr row hle
    exact processSlots_total (time_slots fr) row initBits 0 initBits_length (by omega)
  · intro fr row i hi d hge hmem
    exact processSlots_fail (time_slots fr) row initBits 0 initBits_length i hi d
      (by omega) hmem

/-- C10 witness: a 31-header first row with a Monday answer in the 31st
catalogue slot makes the encoder fail, while any ≤ 30-slot catalogue
encodes totally. -/
theorem C10_witness :
    ((time_slots exRowDays).length ≤ 30 ∧
      (build_availability_sql_columns exRowDays (time_slots exRowDays)).isSome = true) ∧
    ((30 : Nat) ≤ 30 ∧ 30 < (time_slots exFirstRow31).length ∧
      dayName Weekday.mon ∈ splitDays (getSlot exRow31
        ((time_slots exFirstRow31).get ⟨30, by decide⟩)) ∧
      build_availability_sql_columns exRow31 (time_slots exFirstRow31) = none) :=
  ⟨⟨by decide, C10_thirty_slot_bound.1 exRowDays exRowDays (by decide)⟩,
    by decide, by decide, by decide,
    C10_thirty_slot_bound.2 exFirstRow31 exRow31 30 (by decide) .mon (by decide) (by decide)⟩

end IBC

namespace IBC

/-! # C1: person upsert idempotence -/

theorem userPairs_email {row : Row} {e : String}
    (hl : row.lookup "Email" = some (.str e)) (he : e ≠ "") :
    (userPairs row).lookup "email" = some (.str e) := by
  have hk : hasKey row "Email" = true := by rw [hasKey, hl]; rfl
  have hg : pyGet row "Email" = .str e := by rw [pyGet, hl]; rfl
  by_cases hN : hasKey row "Name" = true <;>
    simp [userPairs, SHEET_COLS_TO_SQL_COLS, List.filterMap_cons, hN, hk, hg,
      USERS_COLS, boolean_cols, emptyToNull, he, List.lookup_cons]

theorem insert_into_users_ok {row : Row} {e : String} (db : DB)
    (hl : row.lookup "Email" = some (.str e)) (he : e ≠ "")
    (hno : ∀ u ∈ db.users, sqlEq (getColV u.2 "email") (.str e) = false) :
    insert_into_users row db = .ok (db.nextUid,
      { db with users := db.users ++ [(db.nextUid, userPairs row)],
                nextUid := db.nextUid + 1 }) := by
  have hlkp := userPairs_email hl he
  have hne : (userPairs row).isEmpty = false := by
    cases hup : userPairs row with
    | nil => rw [hup] at hlkp; exact absurd hlkp (by simp [List.lookup])
    | cons p ps => rfl
  have hcol : getColV (userPairs row) "email" = .str e := by
    rw [getColV, hlkp]; rfl
  have hany : db.users.any (fun u => sqlEq (getColV u.2 "email")
      (getColV (userPairs row) "email")) = false := by
    rw [List.any_eq_false]
    intro u hu
    rw [hcol]
    simp [hno u hu]
  unfold insert_into_users
  rw [hne]
  simp only [Bool.false_eq_true, if_false]
  rw [if_neg]
  intro hcontra
  rw [hany] at hcontra
  exact absurd hcontra.2 (by simp)

theorem sqlEq_str_self (e : String) : sqlEq (.str e) (.str e) = true := by
  simp [sqlEq]

theorem consultantPairs_keys {row : Row} {p : String × Val}
    (h : p ∈ consultantPairs row) : p.1 ≠ "user_id" := by
  obtain ⟨k, v⟩ := p
  show k ≠ "user_id"
  rw [consultantPairs, List.mem_append] at h
  rcases h with h | h
  · rw [List.mem_filterMap] at h
    obtain ⟨p, hp, hfp⟩ := h
    split_ifs at hfp with hc
    · injection hfp with hfp
      have hall : ∀ q ∈ SHEET_COLS_TO_SQL_COLS, q.2 ≠ "user_id" := by decide
      rw [show k = p.2 from (congrArg Prod.fst hfp).symm]
      exact hall p hp
  · rw [List.mem_filterMap] at h
    obtain ⟨c, hc2, hfp⟩ := h
    split_ifs at hfp with hc
    · injection hfp with hfp
      have hall : ∀ c2 ∈ AVAILABILITY_COLS, c2 ≠ "user_id" := by decide
      rw [show k = c from (congrArg Prod.fst hfp).symm]
      exact hall c hc2

theorem consultantPairs_no_user_id (row : Row) :
    (consultantPairs row).lookup "user_id" = none :=
  lookup_none_of (fun _ hp => consultantPairs_keys hp)

theorem consultant_row_user_id (row : Row) (uid : Nat) :
    getColV (consultantPairs row ++ [("user_id", Val.int uid)]) "user_id" =
      .int uid := by
  rw [getColV, List.lookup_append, consultantPairs_no_user_id]
  rfl

theorem update_existing_user_shape (row : Row) (uid : Nat) (db : DB) :
    ∃ us, update_existing_user row uid db = .ok ((), { db with users := us }) ∧
      us.length = db.users.length := by
  unfold update_existing_user
  split_ifs with h
  · exact ⟨db.users, rfl, rfl⟩
  · exact ⟨_, rfl, List.length_map _ _⟩

theorem update_existing_consultant_found (row : Row) (uid : Nat) (db : DB)
    (h : db.consultants.any (fun c => sqlEq (getColV c "user_id") (.int uid)) = true) :
    ∃ cs, update_existing_consultant row uid db = .ok ((), { db with consultants := cs }) := by
  unfold update_existing_consultant
  rw [h]
  simp only [if_true]
  split_ifs with h2
  · exact ⟨db.consultants, rfl⟩
  · exact ⟨_, rfl⟩

end IBC

namespace IBC

/-- C1 (amended): against the staffing-roster row loop, a valid person
row whose email is a string not yet present in the store takes the
insert path (created) on the first run and the update path (updated) on
the second run: the second run inserts no second person row and raises
no duplicate-email conflict.  (The new-consultant row loop instead
always takes the insert path; see the counterexample.) -/
theorem C1_staffing_upsert (db : DB) (row : Row) (e : String)
    (hl : row.lookup "Email" = some (.str e))
    (hv : (row_is_valid row).1 = true)
    (hno : get_user_id_by_email db (.str e) = none)
    (hu : 1 ≤ db.nextUid) :
    ∃ db1 db2,
      processRowStaffing row db = .ok (.created, db.nextUid, db1) ∧
      processRowStaffing row db1 = .ok (.updated, db.nextUid, db2) ∧
      db2.users.length = db1.users.length := by
  have hmiss : isMissing (pyGet row "Email") = false := by
    unfold row_is_valid at hv
    by_cases hE : (REQUIRED_SHEET_COLS.filter
        (fun c => isMissing (pyGet row c))).isEmpty = true
    · have h1 := List.isEmpty_iff.mp hE
      rw [List.filter_eq_nil] at h1
      simpa using h1 "Email" (by decide)
    · rw [if_neg hE] at hv
      simp at hv
  have hg : pyGet row "Email" = .str e := by rw [pyGet, hl]; rfl
  have he : e ≠ "" := by
    intro h0
    rw [hg, h0] at hmiss
    rw [show isMissing (Val.str "") = true from by decide] at hmiss
    cases hmiss
  have htr : pyTruthy (Val.str e) = true := by simp [pyTruthy, he]
  have hfind : db.users.find? (fun u => sqlEq (getColV u.2 "email") (.str e)) = none := by
    unfold get_user_id_by_email findUserBy at hno
    exact Option.map_eq_none'.mp hno
  have hno2 : ∀ u ∈ db.users, sqlEq (getColV u.2 "email") (.str e) = false := by
    intro u hu2
    have h2 := List.find?_eq_none.mp hfind u hu2
    simpa using h2
  have hins := insert_into_users_ok db hl he hno2
  have hcol : getColV (userPairs row) "email" = .str e := by
    rw [getColV, userPairs_email hl he]
    rfl
  refine ⟨{ users := db.users ++ [(db.nextUid, userPairs row)],
            consultants := db.consultants ++
              [consultantPairs row ++ [("user_id", Val.int db.nextUid)]],
            projects := db.projects, links := db.links,
            nextUid := db.nextUid + 1, nextPid := db.nextPid }, ?_⟩
  have hrun1 : processRowStaffing row db = .ok (.created, db.nextUid,
      { users := db.users ++ [(db.nextUid, userPairs row)],
        consultants := db.consultants ++
          [consultantPairs row ++ [("user_id", Val.int db.nextUid)]],
        projects := db.projects, links := db.links,
        nextUid := db.nextUid + 1, nextPid := db.nextPid }) := by
    unfold processRowStaffing
    rw [hg, htr]
    simp only [if_true, hno]
    unfold staffingInsert
    rw [hins]
    simp only [except_bind_okay]
    rfl
  have hlkp2 : get_user_id_by_email
      { users := db.users ++ [(db.nextUid, userPairs row)],
        consultants := db.consultants ++
          [consultantPairs row ++ [("user_id", Val.int db.nextUid)]],
        projects := db.projects, links := db.links,
        nextUid := db.nextUid + 1, nextPid := db.nextPid } (.str e) = some db.nextUid := by
    unfold get_user_id_by_email findUserBy
    show (List.find? _ (db.users ++ [(db.nextUid, userPairs row)])).map Prod.fst = _
    rw [List.find?_append, hfind, Option.none_or]
    have hp : sqlEq (getColV (userPairs row) "email") (.str e) = true := by
      rw [hcol]
      exact sqlEq_str_self e
    simp [List.find?, hp]
  obtain ⟨us, hupd, hlen⟩ := update_existing_user_shape row db.nextUid
    { users := db.users ++ [(db.nextUid, userPairs row)],
      consultants := db.consultants ++
        [consultantPairs row ++ [("user_id", Val.int db.nextUid)]],
      projects := db.projects, links := db.links,
      nextUid := db.nextUid + 1, nextPid := db.nextPid }
  have hfound : (db.consultants ++
      [consultantPairs row ++ [("user_id", Val.int db.nextUid)]]).any
      (fun c => sqlEq (getColV c "user_id") (.int db.nextUid)) = true := by
    rw [List.any_append]
    have h3 : sqlEq (getColV (consultantPairs row ++
        [("user_id", Val.int db.nextUid)]) "user_id") (.int db.nextUid) = true := by
      rw [consultant_row_user_id]
      simp [sqlEq]
    simp [List.any_cons, h3]
  obtain ⟨cs, hupd2⟩ := update_existing_consultant_found row db.nextUid
    { users := us,
      consultants := db.consultants ++
        [consultantPairs row ++ [("user_id", Val.int db.nextUid)]],
      projects := db.projects, links := db.links,
      nextUid := db.nextUid + 1, nextPid := db.nextPid } hfound
  refine ⟨{ users := us, consultants := cs,
            projects := db.projects, links := db.links,
            nextUid := db.nextUid + 1, nextPid := db.nextPid }, hrun1, ?_, ?_⟩
  · unfold processRowStaffing
    rw [hg, htr]
    simp only [if_true, hlkp2]
    rw [if_neg (by omega)]
    rw [hupd]
    simp only [except_bind_okay]
    rw [hupd2]
    simp only [except_bind_okay]
    rfl
  · simpa using hlen

end IBC

namespace IBC

/-- C1 counterexample: the new-consultant row loop takes the insert path
unconditionally, so processing the same valid person row twice yields
`created` and then a duplicate-email conflict on the second run, not
`updated`. -/
theorem C1_counterexample :
    (match processRowNC exPersonRow exDB0 with
      | .ok (.created, _, db1) =>
          (match processRowNC exPersonRow db1 with
            | .error (.dataConflict _) => true
            | _ => false)
      | _ => false) = true := by
  decide

/-- C1 witness: the staffing theorem applied to a concrete valid row
against the empty store. -/
theorem C1_witness :
    (exPersonRow.lookup "Email" = some (.str "a@x.edu") ∧
      (row_is_valid exPersonRow).1 = true ∧
      get_user_id_by_email exDB0 (.str "a@x.edu") = none ∧
      1 ≤ exDB0.nextUid) ∧
    ∃ db1 db2,
      processRowStaffing exPersonRow exDB0 = .ok (.created, exDB0.nextUid, db1) ∧
      processRowStaffing exPersonRow db1 = .ok (.updated, exDB0.nextUid, db2) ∧
      db2.users.length = db1.users.length :=
  ⟨⟨by decide, by decide, by decide, by decide⟩,
    C1_staffing_upsert exDB0 exPersonRow "a@x.edu" (by decide) (by decide)
      (by decide) (by decide)⟩

end IBC

namespace IBC

/-! # C5: project upsert no-op detection and side-effect asymmetry -/

theorem update_user_role_frame {db : DB} {uid : Nat} {rc : String} {db' : DB}
    (h : update_user_role_if_needed db uid rc = .ok db') :
    db'.consultants = db.consultants ∧ db'.links = db.links ∧
    db'.projects = db.projects := by
  unfold update_user_role_if_needed at h
  cases hf : db.users.find? (fun u => u.1 = uid) with
  | none => simp only [hf] at h; exact Except.noConfusion h
  | some u =>
      simp only [hf] at h
      split_ifs at h with hr
      · injection h with h
        subst h
        exact ⟨rfl, rfl, rfl⟩
      · injection h with h
        subst h
        exact ⟨rfl, rfl, rfl⟩

theorem get_role_frame {db : DB} {v : Val} {rc : String} {o : Option Nat} {db' : DB}
    (h : get_user_id_for_role_by_netid db v rc = .ok (o, db')) :
    db'.consultants = db.consultants ∧ db'.links = db.links ∧
    db'.projects = db.projects := by
  unfold get_user_id_for_role_by_netid at h
  by_cases ht : pyTruthy v = true
  · rw [if_neg (by simp [ht])] at h
    cases hl : get_user_id_by_netid db v with
    | none =>
        simp only [hl] at h
        exact Except.noConfusion h
    | some uid =>
        simp only [hl] at h
        cases hr : update_user_role_if_needed db uid rc with
        | error e => simp only [hr, except_bind_error] at h; exact Except.noConfusion h
        | ok db1 =>
            simp only [hr, except_bind_okay, except_pure] at h
            injection h with h
            have hdb : db1 = db' := congrArg Prod.snd h
            subst hdb
            exact update_user_role_frame hr
  · rw [if_pos ht] at h
    injection h with h
    have hdb : db = db' := congrArg Prod.snd h
    subst hdb
    exact ⟨rfl, rfl, rfl⟩

theorem update_project_frame {db : DB} {pid : Nat} {row : Row} {r : Option Nat}
    {db' : DB} (h : update_project db pid row = .ok (r, db')) :
    db'.consultants = db.consultants ∧ db'.links = db.links ∧
    (r = none ↔ projJoin db pid = some (projectNewVals row)) ∧
    (r = none → db'.projects = db.projects) := by
  unfold update_project at h
  cases h1 : get_user_id_for_role_by_netid db (pyGet row "em_netid") "EM" with
  | error e => simp only [h1, except_bind_error] at h; exact Except.noConfusion h
  | ok p1 =>
  obtain ⟨em, db1⟩ := p1
  simp only [h1, except_bind_okay] at h
  cases h2 : get_user_id_for_role_by_netid db1 (pyGet row "sm_netid") "SM" with
  | error e => simp only [h2, except_bind_error] at h; exact Except.noConfusion h
  | ok p2 =>
  obtain ⟨sm, db2⟩ := p2
  simp only [h2, except_bind_okay] at h
  cases h3 : get_user_id_for_role_by_netid db2 (pyGet row "pm_netid") "PM" with
  | error e => simp only [h3, except_bind_error] at h; exact Except.noConfusion h
  | ok p3 =>
  obtain ⟨pm, db3⟩ := p3
  simp only [h3, except_bind_okay] at h
  cases h4 : get_user_id_for_role_by_netid db3 (pyGet row "sc1_netid") "SC" with
  | error e => simp only [h4, except_bind_error] at h; exact Except.noConfusion h
  | ok p4 =>
  obtain ⟨sc1, db4⟩ := p4
  simp only [h4, except_bind_okay] at h
  cases h5 : get_user_id_for_role_by_netid db4 (pyGet row "sc2_netid") "SC" with
  | error e => simp only [h5, except_bind_error] at h; exact Except.noConfusion h
  | ok p5 =>
  obtain ⟨sc2, db5⟩ := p5
  simp only [h5, except_bind_okay] at h
  obtain ⟨hc1, hl1, hp1⟩ := get_role_frame h1
  obtain ⟨hc2, hl2, hp2⟩ := get_role_frame h2
  obtain ⟨hc3, hl3, hp3⟩ := get_role_frame h3
  obtain ⟨hc4, hl4, hp4⟩ := get_role_frame h4
  obtain ⟨hc5, hl5, hp5⟩ := get_role_frame h5
  split_ifs at h with hcur
  · simp only [except_pure] at h
    injection h with h
    have hr : (none : Option Nat) = r := congrArg Prod.fst h
    have hdb : db5 = db' := congrArg Prod.snd h
    subst hdb
    rw [← hr]
    refine ⟨?_, ?_, by simp [hcur], fun _ => ?_⟩
    · rw [hc5, hc4, hc3, hc2, hc1]
    · rw [hl5, hl4, hl3, hl2, hl1]
    · rw [hp5, hp4, hp3, hp2, hp1]
  · simp only [except_pure] at h
    injection h with h
    rw [Prod.mk.injEq] at h
    obtain ⟨hr, hdb⟩ := h
    subst hdb
    refine ⟨?_, ?_, ?_, ?_⟩
    · show db5.consultants = db.consultants
      rw [hc5, hc4, hc3, hc2, hc1]
    · show db5.links = db.links
      rw [hl5, hl4, hl3, hl2, hl1]
    · rw [← hr]
      simp [hcur]
    · intro h0
      rw [← hr] at h0
      exact Option.noConfusion h0

/-- C5 (amended): when the resolved tuple equals the stored tuple the
project upsert reports unchanged (`None`) and writes nothing to the
projects, consultants or consultant-project link tables — although the
role-resolution step that runs before the comparison may still rewrite
a role holder's current-role label (see the counterexample); the
returning-status cascade and link creation never fire on the update
path (any `updated`/`unchanged` outcome), only on `created`. -/
theorem C5_project_no_op (db : DB) (pid : Nat) (row : Row) (r : Option Nat)
    (db' : DB) :
    (update_project db pid row = .ok (r, db') →
      db'.consultants = db.consultants ∧ db'.links = db.links ∧
      (r = none ↔ projJoin db pid = some (projectNewVals row)) ∧
      (r = none → db'.projects = db.projects)) ∧
    (∀ pid0, project_exists db (pyGet row "project_name") = some pid0 →
      insert_project db row = .ok (r, db') →
      db'.consultants = db.consultants ∧ db'.links = db.links) := by
  constructor
  · exact fun h => update_project_frame h
  · intro pid0 hex h
    unfold insert_project at h
    simp only [hex] at h
    obtain ⟨hc, hl, _, _⟩ := update_project_frame h
    exact ⟨hc, hl⟩

/-- C5 counterexample: re-submitting the identical project row reports
unchanged, yet a write occurs — the manager's current-role label is
rewritten from "NC" to "EM" by the role resolution that runs before the
comparison — so "performs zero writes" is false as stated. -/
theorem C5_counterexample :
    update_project exDBProj 1 exRowProjSame = .ok (none, exDBProjAfter) ∧
    exDBProjAfter ≠ exDBProj ∧ exDBProjAfter.users ≠ exDBProj.users := by
  refine ⟨by decide, by decide, by decide⟩

/-- C5 witness: the theorem applied to the concrete unchanged
resubmission. -/
theorem C5_witness :
    update_project exDBProj 1 exRowProjSame = .ok (none, exDBProjAfter) ∧
    (exDBProjAfter.consultants = exDBProj.consultants ∧
      exDBProjAfter.links = exDBProj.links ∧
      ((none : Option Nat) = none ↔
        projJoin exDBProj 1 = some (projectNewVals exRowProjSame)) ∧
      ((none : Option Nat) = none → exDBProjAfter.projects = exDBProj.projects)) :=
  ⟨by decide, (C5_project_no_op exDBProj 1 exRowProjSame none exDBProjAfter).1 (by decide)⟩

end IBC

namespace IBC

/-- C6 witness: the theorem applied to a null manager slot, to the
concrete unresolvable netid "ghost", and to the one-row failing batch. -/
theorem C6_witness :
    (pyTruthy Val.null = false ∧
      get_user_id_for_role_by_netid exDB0 .null "EM" = .ok (none, exDB0)) ∧
    (("em_netid", "EM") ∈ roleSlots ∧ pyGet exRowProjGhost "em_netid" = .str "ghost" ∧
      "ghost" ≠ "" ∧ get_user_id_by_netid exDB0 (.str "ghost") = none) ∧
    (∃ slot2 rc2 v2, (slot2, rc2) ∈ roleSlots ∧ pyGet exRowProjGhost slot2 = v2 ∧
      pyTruthy v2 = true ∧ get_user_id_by_netid exDB0 v2 = none ∧
      insert_project exDB0 exRowProjGhost = .error (.invalidFormat
        ("NetID '" ++ pyStr v2 ++ "' for role " ++ rc2 ++ " not found in database"))) ∧
    projectsLoop [exRowProjGhost] ⟨exDB0, exDB0⟩ = projectsLoop [] ⟨exDB0, exDB0⟩ :=
  ⟨⟨by decide, C6_role_referential_integrity.1 exDB0 .null "EM" (by decide)⟩,
    ⟨by decide, by decide, by decide, by decide⟩,
    C6_role_referential_integrity.2.1 exDB0 exRowProjGhost "em_netid" "EM" "ghost"
      (by decide) (by decide) (by decide) (by decide),
    C6_role_referential_integrity.2.2.1 exDB0 exRowProjGhost []
      (.invalidFormat "NetID 'ghost' for role EM not found in database") (by decide)⟩

end IBC
